import Mathlib

/-!
# orchomp: collision cost and gradient engine

A shallow embedding of `src/orchomp_mod_collision.cpp`.  The C++ `double`
(`OpenRAVE::dReal`) arithmetic is read as exact arithmetic in a linearly
ordered field `K`; every definition is computable at `K = ℚ` and can be
instantiated at `K = ℝ` for the analytic statements.  Rounding, infinities and
NaN of IEEE doubles are outside this model; division follows the field
convention `x / 0 = 0`.
-/

namespace orchomp

/-! ## Data model -/

/-- Three-component workspace vector (the `vec3` of the sources). -/
@[ext]
structure vec3 (K : Type) where
  x : K
  y : K
  z : K
deriving DecidableEq

namespace vec3

variable {K : Type}

/-- The vector `vec3(0,0,0)`. -/
def zero [Zero K] : vec3 K := ⟨0, 0, 0⟩

/-- In-place scaling `v *= c`. -/
def scale [Mul K] (v : vec3 K) (c : K) : vec3 K := ⟨v.x * c, v.y * c, v.z * c⟩

/-- Vector sum `v + w`. -/
def add [Add K] (v w : vec3 K) : vec3 K := ⟨v.x + w.x, v.y + w.y, v.z + w.z⟩

/-- Vector difference `v - w`. -/
def sub [Sub K] (v w : vec3 K) : vec3 K := ⟨v.x - w.x, v.y - w.y, v.z - w.z⟩

/-- Component access `v[i]` for `i < 3`. -/
def get (v : vec3 K) (i : Fin 3) : K :=
  match i with
  | 0 => v.x
  | 1 => v.y
  | 2 => v.z

end vec3

/-! ## Smoothed cost potential -/

/-- Embedding of `computeCostFromDist` (orchomp_mod_collision.cpp, lines 8-37).
The reference parameter `gradient` is returned as the second component. -/
def computeCostFromDist {K : Type} [LinearOrderedField K]
    (dist : K) (epsilon : K) (gradient : vec3 K) : K × vec3 K :=
  if dist < 0 then
    (-dist + 0.5 * epsilon, gradient.scale (-1))
  else if dist ≤ epsilon then
    let f := dist - epsilon
    (f * f * 0.5 / epsilon, gradient.scale (f * 0.5 / epsilon))
  else
    (0, gradient)

/-! ## Sphere model and external collaborators -/

/-- Modelled from the spec: the `Sphere` record of `orchomp_kdata.h`, a header
that is not among the sources.  `body` and `link` stand for the identities of
the `KinBody` and `Link` pointers; `linkindex`, `pose` and `radius` are the
fields read by the collision code. -/
structure Sphere (K : Type) where
  body : Nat
  link : Nat
  linkindex : Int
  pose : vec3 K
  radius : K

/-- The OpenRAVE robot as seen by the collision code.  Link transforms and
Jacobians depend on the active DOF values last applied to the robot, which are
passed as the first argument.
* `GetAdjacentLinks`: the set of packed adjacent link pairs;
* `GetTransform dofs link p`: `link->GetTransform() * p`;
* `CalculateActiveJacobian dofs linkindex p`: the row-major Jacobian. -/
structure Robot (K : Type) where
  GetAdjacentLinks : List Int
  GetTransform : List K → Nat → vec3 K → vec3 K
  CalculateActiveJacobian : List K → Int → vec3 K → List K

/-- The two switches of `ChompInfo` read by `getCost`. -/
structure ChompInfo where
  noEnvironmentalCollision : Bool
  noSelfCollision : Bool

/-- The part of the planner module (`mod`) read by the collision helper.
`activeDOFValues` is the robot state written by `SetActiveDOFValues`; every
entry of `sdfs` is the `getDist` query of one distance field, returning the
distance and the gradient at a point; `getStateAsVector` converts an optimizer
row into a DOF vector (declared in `orchomp_mod.h`, not among the sources). -/
structure mod (K : Type) where
  robot : Robot K
  activeDOFValues : List K
  active_spheres : List (Sphere K)
  inactive_spheres : List (Sphere K)
  sdfs : List (vec3 K → K × vec3 K)
  info : ChompInfo
  getStateAsVector : List K → List K

/-- The `SphereCollisionHelper` object: dimensions, cost weights and the
module it reads.  `nwkspace_le` records that workspace rows index a `vec3`
(the helper is constructed with `nwkspace = 3` in `mod::create`). -/
structure SphereCollisionHelper (K : Type) where
  ncspace : Nat
  nwkspace : Nat
  nwkspace_le : nwkspace ≤ 3
  epsilon : K
  epsilon_self : K
  obs_factor : K
  obs_factor_self : K
  module : mod K

/-- Embedding of `mod::areAdjacent` (lines 40-57): the pair is packed as
`(second << 16) | (first & 0xFFFF)` with `first ≤ second` and looked up in the
robot's adjacency set.  Link indices are read as unbounded integers. -/
def mod.areAdjacent {K : Type} (M : mod K) (first second : Int) : Bool :=
  let lo := if first > second then second else first
  let hi := if first > second then first else second
  let value := Int.lor (hi <<< (16 : Int)) (Int.land lo 0x0000FFFF)
  decide (value ∈ M.robot.GetAdjacentLinks)

/-! ## Environment proximity evaluator -/

/-- One iteration of the field loop of `getSDFCollisions` (lines 240-253).
The running minimum starts at `HUGE_VAL`, modelled by `none`. -/
def sdfStep {K : Type} [LinearOrderedField K] (position : vec3 K)
    (acc : Option K × vec3 K) (sdf : vec3 K → K × vec3 K) : Option K × vec3 K :=
  let current_dist := (sdf position).1
  let current_gradient := (sdf position).2
  match acc.1 with
  | none => (some current_dist, current_gradient)
  | some dist => if current_dist < dist then (some current_dist, current_gradient) else acc

/-- Embedding of `SphereCollisionHelper::getSDFCollisions` (lines 223-270).
Returns the cost and the final content of the `gradient` buffer. -/
def getSDFCollisions {K : Type} [LinearOrderedField K] (H : SphereCollisionHelper K)
    (sphere : Sphere K) (position : vec3 K) (gradient : vec3 K) : K × vec3 K :=
  if H.module.sdfs.length = 0 then
    (0, gradient)
  else
    let r := H.module.sdfs.foldl (sdfStep position) (none, gradient)
    match r.1 with
    | none => (0, r.2)
    | some dist => computeCostFromDist (dist - sphere.radius) H.epsilon r.2

/-! ## Self-collision evaluator -/

/-- Accumulators of the loop of `getSelfCollisions`. -/
structure SelfAcc (K : Type) where
  cost : K
  gradient : vec3 K
  otherJacobian : List K

/-- The accumulation loop of lines 360-362:
`otherJacobian[i] += collision_jacobian[i] * current_cost`. -/
def accumulateJacobian {K : Type} [LinearOrderedField K]
    (otherJacobian collision_jacobian : List K) (current_cost : K) : List K :=
  (List.range collision_jacobian.length).foldl
    (fun oj i => oj.set i (oj.getD i 0 + collision_jacobian.getD i 0 * current_cost))
    otherJacobian

/-- Lines 317-323 of `getSelfCollisions`: world position of a sphere, its
local pose mapped through the transform of its link. -/
def spherePos {K : Type} (H : SphereCollisionHelper K) (sphere : Sphere K) : vec3 K :=
  H.module.robot.GetTransform H.module.activeDOFValues sphere.link sphere.pose

/-- Lines 328-335 of `getSelfCollisions`: `sqrt` of the squared length of
`position - collision_pos`. -/
def distBetweenCenters {K : Type} [LinearOrderedField K] (sqrt : K → K)
    (position collision_pos : vec3 K) : K :=
  let diff := position.sub collision_pos
  let dist_sqrd := diff.x * diff.x + diff.y * diff.y + diff.z * diff.z
  sqrt dist_sqrd

/-- Lines 317-366 of `getSelfCollisions`: the contribution of one sphere that
passed the exclusion tests. -/
def selfCollisionPair {K : Type} [LinearOrderedField K] (sqrt : K → K)
    (H : SphereCollisionHelper K) (current_sphere : Sphere K) (position : vec3 K)
    (acc : SelfAcc K) (collision_sphere : Sphere K) : SelfAcc K :=
  let collision_pos := spherePos H collision_sphere
  let diff := position.sub collision_pos
  let dist_between_centers := distBetweenCenters sqrt position collision_pos
  let gradient_collision : vec3 K :=
    ⟨diff.x / dist_between_centers, diff.y / dist_between_centers,
     diff.z / dist_between_centers⟩
  let dist_self := dist_between_centers - collision_sphere.radius - current_sphere.radius
  let r := computeCostFromDist dist_self H.epsilon_self gradient_collision
  let current_cost := r.1
  let collision_jacobian : List K :=
    if current_cost > 0 then
      H.module.robot.CalculateActiveJacobian H.module.activeDOFValues
        collision_sphere.linkindex collision_pos
    else []
  { cost := acc.cost + current_cost
    gradient := acc.gradient.add (r.2.scale current_cost)
    otherJacobian := accumulateJacobian acc.otherJacobian collision_jacobian current_cost }

/-- Lines 298-315 followed by the pair computation: the exclusion tests applied
to one candidate sphere. -/
def selfCollisionSphere {K : Type} [LinearOrderedField K] (sqrt : K → K)
    (H : SphereCollisionHelper K) (current_sphere : Sphere K) (position : vec3 K)
    (acc : SelfAcc K) (collision_sphere : Sphere K) : SelfAcc K :=
  if current_sphere.linkindex = collision_sphere.linkindex then acc
  else if current_sphere.body = collision_sphere.body ∧
      H.module.areAdjacent current_sphere.linkindex collision_sphere.linkindex = true then acc
  else selfCollisionPair sqrt H current_sphere position acc collision_sphere

/-- One iteration `i` of the loop of `getSelfCollisions` (lines 289-368). -/
def selfCollisionStep {K : Type} [LinearOrderedField K] (sqrt : K → K)
    (H : SphereCollisionHelper K) (body_index : Nat) (current_sphere : Sphere K)
    (position : vec3 K) (acc : SelfAcc K) (i : Nat) : SelfAcc K :=
  let n_active := H.module.active_spheres.length
  if i = body_index then acc
  else
    match (if i < n_active then H.module.active_spheres[i]?
           else H.module.inactive_spheres[i - n_active]?) with
    | none => acc
    | some collision_sphere =>
        selfCollisionSphere sqrt H current_sphere position acc collision_sphere

/-- Embedding of `SphereCollisionHelper::getSelfCollisions` (lines 273-372).
`sqrt` is the square root of the C library.  The result holds the returned
cost, the `gradient` output and the updated `otherJacobian` buffer. -/
def getSelfCollisions {K : Type} [LinearOrderedField K] (sqrt : K → K)
    (H : SphereCollisionHelper K) (body_index : Nat) (current_sphere : Sphere K)
    (position : vec3 K) (otherJacobian : List K) : SelfAcc K :=
  let n_active := H.module.active_spheres.length
  let n_inactive := H.module.inactive_spheres.length
  (List.range (n_active + n_inactive)).foldl
    (selfCollisionStep sqrt H body_index current_sphere position)
    { cost := 0, gradient := vec3.zero, otherJacobian := otherJacobian }

/-! ## Cost aggregator -/

/-- Values computed by `getCost` before the output matrices are filled. -/
structure CostTerms (K : Type) where
  cost_sdf : K
  gradient_sdf : vec3 K
  cost_self : K
  gradient_self : vec3 K
  otherJacobian : List K
  jacobian : List K

/-- Outputs of `getCost`: the returned cost and the matrices `dx_dq`, `cgrad`. -/
structure CostOutput (K : Type) (nwkspace ncspace : Nat) where
  cost : K
  dx_dq : Fin nwkspace → Fin ncspace → K
  cgrad : Fin nwkspace → K

/-- Lines 387-404 of `getCost`: for `body_index = 0` the configuration `q` is
applied to the robot. -/
def applyConfiguration {K : Type} (H : SphereCollisionHelper K) (q : List K)
    (body_index : Nat) : SphereCollisionHelper K :=
  if body_index = 0 then
    { H with module := { H.module with activeDOFValues := H.module.getStateAsVector q } }
  else H

/-- Lines 421-427 of `getCost`: the environment cost and gradient, zero when
environment collisions are switched off. -/
def envTerm {K : Type} [LinearOrderedField K] (H : SphereCollisionHelper K)
    (current_sphere : Sphere K) : K × vec3 K :=
  if !H.module.info.noEnvironmentalCollision then
    getSDFCollisions H current_sphere (spherePos H current_sphere) vec3.zero
  else (0, vec3.zero)

/-- Lines 429-435 of `getCost`: the self-collision cost, gradient and Jacobian
buffer; the buffer starts as `nwkspace * ncspace` zeros. -/
def selfTerm {K : Type} [LinearOrderedField K] (sqrt : K → K)
    (H : SphereCollisionHelper K) (body_index : Nat) (current_sphere : Sphere K) :
    SelfAcc K :=
  let zeros : List K := List.replicate (H.nwkspace * H.ncspace) 0
  if !H.module.info.noSelfCollision then
    getSelfCollisions sqrt H body_index current_sphere (spherePos H current_sphere) zeros
  else { cost := 0, gradient := vec3.zero, otherJacobian := zeros }

/-- Lines 437-443 of `getCost`: the Jacobian of the evaluated sphere. -/
def sphereJacobian {K : Type} (H : SphereCollisionHelper K) (current_sphere : Sphere K) :
    List K :=
  H.module.robot.CalculateActiveJacobian H.module.activeDOFValues
    current_sphere.linkindex (spherePos H current_sphere)

/-- Lines 406-446 of `getCost`, run on the helper `H` whose robot already
holds the configuration: the evaluated sphere, the two collision evaluators and
the Jacobian of the sphere.  `none` stands for an access past the end of
`active_spheres` or a failure of the size assertion of line 446. -/
def getCostTerms {K : Type} [LinearOrderedField K] (sqrt : K → K)
    (H : SphereCollisionHelper K) (body_index : Nat) : Option (CostTerms K) :=
  match H.module.active_spheres[body_index]? with
  | none => none
  | some current_sphere =>
    let env := envTerm H current_sphere
    let self := selfTerm sqrt H body_index current_sphere
    let jacobian := sphereJacobian H current_sphere
    if jacobian.length = H.ncspace * H.nwkspace then
      some { cost_sdf := env.1, gradient_sdf := env.2, cost_self := self.cost,
             gradient_self := self.gradient, otherJacobian := self.otherJacobian,
             jacobian := jacobian }
    else none

/-- Lines 448-481 of `getCost`: the output matrices and the returned cost. -/
def fillOutputs {K : Type} [LinearOrderedField K] (H : SphereCollisionHelper K)
    (t : CostTerms K) : CostOutput K H.nwkspace H.ncspace :=
  let total_factor := H.obs_factor + H.obs_factor_self
  { cgrad := fun i =>
      let k : Fin 3 := Fin.castLE H.nwkspace_le i
      if t.cost_self > 0.0000001 then
        H.obs_factor * t.gradient_sdf.get k
          + H.obs_factor_self * t.gradient_self.get k / t.cost_self
      else H.obs_factor * t.gradient_sdf.get k
    dx_dq := fun i j =>
      if t.cost_self > 0.0000001 then
        t.jacobian.getD (i.val * H.ncspace + j.val) 0 * total_factor
          - t.otherJacobian.getD (i.val * H.ncspace + j.val) 0 / t.cost_self
              * H.obs_factor_self
      else t.jacobian.getD (i.val * H.ncspace + j.val) 0 * H.obs_factor
    cost := H.obs_factor * t.cost_sdf + H.obs_factor_self * t.cost_self }

/-- Embedding of `SphereCollisionHelper::getCost` (lines 374-482). -/
def getCost {K : Type} [LinearOrderedField K] (sqrt : K → K)
    (H : SphereCollisionHelper K) (q : List K) (body_index : Nat) :
    Option (CostOutput K H.nwkspace H.ncspace) :=
  (getCostTerms sqrt (applyConfiguration H q body_index) body_index).map (fillOutputs H)


/-! ## Proof-side definitions and examples -/

/-- Square root on the rationals, exact on squares of rationals: the integer
square roots of numerator and denominator. -/
def sqrtQ (q : ℚ) : ℚ := (Nat.sqrt q.num.natAbs : ℚ) / (Nat.sqrt q.den : ℚ)

/-- Example robot: identity link transforms, links 1 and 2 adjacent, and a
`3 × 2` Jacobian that depends on the link only. -/
def demoRobot (K : Type) [LinearOrderedField K] : Robot K where
  GetAdjacentLinks := [131073]
  GetTransform := fun _ _ p => p
  CalculateActiveJacobian := fun _ linkindex _ =>
    if linkindex = 0 then [1, 2, 3, 4, 5, 6] else [6, 5, 4, 3, 2, 1]

/-- Example module: a unit sphere on link 0 at the origin, a sphere of radius 2
on link 3 at `(3, 4, 0)`, both active, the given inactive spheres, and one
distance field reporting distance `10` with gradient `(1, 0, 0)` everywhere.
`noSelf` switches self-collision off. -/
def demoModule (K : Type) [LinearOrderedField K] (noSelf : Bool)
    (inactive : List (Sphere K)) : mod K where
  robot := demoRobot K
  activeDOFValues := []
  active_spheres := [⟨0, 0, 0, ⟨0, 0, 0⟩, 1⟩, ⟨0, 3, 3, ⟨3, 4, 0⟩, 2⟩]
  inactive_spheres := inactive
  sdfs := [fun _ => (10, ⟨1, 0, 0⟩)]
  info := ⟨false, noSelf⟩
  getStateAsVector := fun q => q

/-- Example helper: `ncspace = 2`, `nwkspace = 3`, `epsilon = 1`, the given
`epsilon_self`, both weights `1`. -/
def demoHelper (K : Type) [LinearOrderedField K] (noSelf : Bool) (epsilon_self : K)
    (inactive : List (Sphere K)) : SphereCollisionHelper K :=
  ⟨2, 3, le_refl 3, 1, epsilon_self, 1, 1, demoModule K noSelf inactive⟩

/-- The index loop of `getSelfCollisions` read as a traversal of a list whose
head has index `i`: the element of index `bi` is passed over. -/
def loopFrom {α β : Type} (f : β → α → β) (bi : Nat) : Nat → List α → β → β
  | _, [], acc => acc
  | i, a :: rest, acc => loopFrom f bi (i + 1) rest (if i = bi then acc else f acc a)

/-- The sphere set with the sphere of combined index `k` (active spheres
first, then inactive ones) taken out. -/
def removeSphere {K : Type} (M : mod K) (k : Nat) : mod K :=
  if k < M.active_spheres.length then
    { M with active_spheres := M.active_spheres.eraseIdx k }
  else
    { M with inactive_spheres := M.inactive_spheres.eraseIdx (k - M.active_spheres.length) }

/-- Example helper with a chosen sphere set: robot, distance field and weights
of `demoHelper` (`epsilon_self = 4`, self-collision on). -/
def sphereSetHelper (active inactive : List (Sphere ℚ)) : SphereCollisionHelper ℚ :=
  { demoHelper ℚ false 4 inactive with
    module := { demoModule ℚ false inactive with active_spheres := active } }

/-- Example helper for the adjacency test: the evaluated sphere (body 0, link 1,
radius 1, at the origin) is the only active sphere; the only inactive sphere
sits on another body (body 1) with link index 2, radius 2, at `(3, 4, 0)`.
Link indices 1 and 2 are registered as adjacent in `demoRobot`. -/
def twoBodyHelper : SphereCollisionHelper ℚ :=
  sphereSetHelper [⟨0, 1, 1, ⟨0, 0, 0⟩, 1⟩] [⟨1, 2, 2, ⟨3, 4, 0⟩, 2⟩]

/-- Example helper for coincident centers: two unit spheres of body 0 on the
non-adjacent links 0 and 3, both at the origin. -/
def coincidentHelper : SphereCollisionHelper ℚ :=
  sphereSetHelper [⟨0, 0, 0, ⟨0, 0, 0⟩, 1⟩, ⟨0, 3, 3, ⟨0, 0, 0⟩, 1⟩] []

/-- The unit direction of lines 337-341: `position - collision_pos` divided by
the distance between the centers. -/
def unitDirection {K : Type} [LinearOrderedField K] (sqrt : K → K)
    (position collision_pos : vec3 K) : vec3 K :=
  ⟨(position.sub collision_pos).x / distBetweenCenters sqrt position collision_pos,
   (position.sub collision_pos).y / distBetweenCenters sqrt position collision_pos,
   (position.sub collision_pos).z / distBetweenCenters sqrt position collision_pos⟩

/-- The pair cost and scaled direction in the words of the specification:
`computeCostFromDist(center distance - r_other - r_current, epsilon_self,
unit direction)`. -/
def pairResult {K : Type} [LinearOrderedField K] (sqrt : K → K)
    (H : SphereCollisionHelper K) (current_sphere : Sphere K) (position : vec3 K)
    (other : Sphere K) : K × vec3 K :=
  computeCostFromDist
    (distBetweenCenters sqrt position (spherePos H other) - other.radius
      - current_sphere.radius)
    H.epsilon_self (unitDirection sqrt position (spherePos H other))

/-- The exclusion rule in the words of the specification: a sphere of combined
index `p.1` counts unless it is the evaluated one, shares its link index, or is
on the same body with an adjacent link. -/
def notExcluded {K : Type} (H : SphereCollisionHelper K) (body_index : Nat)
    (current_sphere : Sphere K) (p : Nat × Sphere K) : Bool :=
  decide (p.1 ≠ body_index) && decide (current_sphere.linkindex ≠ p.2.linkindex) &&
    !(decide (current_sphere.body = p.2.body) &&
      H.module.areAdjacent current_sphere.linkindex p.2.linkindex)

/-- The non-excluded other spheres, in the order of the combined sphere list
(active spheres first). -/
def nonExcluded {K : Type} (H : SphereCollisionHelper K) (body_index : Nat)
    (current_sphere : Sphere K) : List (Sphere K) :=
  (((H.module.active_spheres ++ H.module.inactive_spheres).enum).filter
    (notExcluded H body_index current_sphere)).map Prod.snd

/-! ## Joint limits and seed trajectory (orchomp_mod.cpp) -/

/-- The part of the planner module read and written by `create`: raw and padded
joint limits, the endpoints `q0`, `q1`, the waypoint count `info.n`, the padding
fraction `info.jointPadding` and the trajectory matrix (one row per waypoint).
Row vectors and limit vectors are lists; `v.getD i 0` reads entry `i`.  The
two raw limit vectors come from the robot with one entry per degree of
freedom. -/
structure Planner (K : Type) where
  upperJointLimits : List K
  lowerJointLimits : List K
  paddedUpperJointLimits : List K
  paddedLowerJointLimits : List K
  q0 : List K
  q1 : List K
  n : Nat
  jointPadding : K
  trajectory : List (List K)

/-- Embedding of `mod::isWithinPaddedLimits` (orchomp_mod.cpp, lines 44-56).
`none` stands for a failed assertion. -/
def isWithinPaddedLimits {K : Type} [LinearOrderedField K] (M : Planner K)
    (mat : List K) : Option Bool :=
  if 0 < M.upperJointLimits.length ∧ 0 < M.lowerJointLimits.length ∧ 0 < mat.length then
    some ((List.range mat.length).all fun i =>
      !(decide (mat.getD i 0 > M.paddedUpperJointLimits.getD i 0) ||
        decide (mat.getD i 0 < M.paddedLowerJointLimits.getD i 0)))
  else none

/-- Embedding of `mod::isWithinLimits` (orchomp_mod.cpp, lines 57-69).
`none` stands for a failed assertion. -/
def isWithinLimits {K : Type} [LinearOrderedField K] (M : Planner K)
    (mat : List K) : Option Bool :=
  if 0 < M.upperJointLimits.length ∧ 0 < M.lowerJointLimits.length ∧ 0 < mat.length then
    some ((List.range mat.length).all fun i =>
      !(decide (mat.getD i 0 > M.upperJointLimits.getD i 0) ||
        decide (mat.getD i 0 < M.lowerJointLimits.getD i 0)))
  else none

/-- Embedding of `mod::clampToLimits` (orchomp_mod.cpp, lines 586-595): the
state after the in-place loop. -/
def clampToLimits {K : Type} [LinearOrderedField K] (M : Planner K)
    (state : List K) : List K :=
  (List.range state.length).map fun i =>
    if state.getD i 0 > M.paddedUpperJointLimits.getD i 0 then
      M.paddedUpperJointLimits.getD i 0
    else if state.getD i 0 < M.paddedLowerJointLimits.getD i 0 then
      M.paddedLowerJointLimits.getD i 0
    else state.getD i 0

/-- Row `i` written by `createInitialTrajectory` (line 575):
`(i+1)*(q1-q0)/(info.n+1) + q0`. -/
def seedRow {K : Type} [LinearOrderedField K] (M : Planner K) (i : Nat) : List K :=
  (List.range M.q0.length).map fun j =>
    ((i : K) + 1) * (M.q1.getD j 0 - M.q0.getD j 0) / ((M.n : K) + 1) + M.q0.getD j 0

/-- Embedding of `mod::createInitialTrajectory` (orchomp_mod.cpp, lines
562-584): the trajectory matrix, or `none` when one of the assertions fails
(zero waypoint count, endpoints of different size, a row outside the raw
limits). -/
def createInitialTrajectory {K : Type} [LinearOrderedField K] (M : Planner K) :
    Option (List (List K)) :=
  if M.n ≠ 0 ∧ M.q0.length = M.q1.length then
    if (List.range M.n).all (fun i => isWithinLimits M (seedRow M i) == some true) then
      some ((List.range M.n).map (seedRow M))
    else none
  else none

/-- The padded upper limits computed in `create` (lines 349-358). -/
def padUpper {K : Type} [LinearOrderedField K] (M : Planner K) : List K :=
  (List.range M.upperJointLimits.length).map fun i =>
    M.upperJointLimits.getD i 0
      - (M.upperJointLimits.getD i 0 - M.lowerJointLimits.getD i 0) * M.jointPadding

/-- The padded lower limits computed in `create` (lines 349-358). -/
def padLower {K : Type} [LinearOrderedField K] (M : Planner K) : List K :=
  (List.range M.upperJointLimits.length).map fun i =>
    M.lowerJointLimits.getD i 0
      + (M.upperJointLimits.getD i 0 - M.lowerJointLimits.getD i 0) * M.jointPadding

/-- Lines 343-358 of `create`, after the seed trajectory has been built: the
module with the trajectory and the padded limits stored. -/
def withPaddedLimits {K : Type} [LinearOrderedField K] (M : Planner K)
    (trajectory : List (List K)) : Planner K :=
  { M with trajectory := trajectory
           paddedUpperJointLimits := padUpper M
           paddedLowerJointLimits := padLower M }

/-- Embedding of `mod::create` (orchomp_mod.cpp, lines 331-377) up to the
construction of the optimizer, on the module as left by `parseCreate`: the seed
trajectory is built, the padded limits are computed, both endpoints are clamped
and asserted to lie within the padded limits.  The result is the module whose
`trajectory`, `q0` and `q1` are handed to `chomp::Chomp`; `none` stands for a
failed assertion. -/
def create {K : Type} [LinearOrderedField K] (M : Planner K) : Option (Planner K) :=
  match createInitialTrajectory M with
  | none => none
  | some trajectory =>
    let M1 := withPaddedLimits M trajectory
    let M2 := { M1 with q0 := clampToLimits M1 M1.q0 }
    let M3 := { M2 with q1 := clampToLimits M2 M2.q1 }
    if isWithinPaddedLimits M3 M3.q0 = some true then
      if isWithinPaddedLimits M3 M3.q1 = some true then some M3 else none
    else none

/-- Example planner with one degree of freedom. -/
def demoPlanner (K : Type) [LinearOrderedField K] (lower upper q0 q1 : K) (n : Nat)
    (jointPadding : K) : Planner K where
  upperJointLimits := [upper]
  lowerJointLimits := [lower]
  paddedUpperJointLimits := []
  paddedLowerJointLimits := []
  q0 := [q0]
  q1 := [q1]
  n := n
  jointPadding := jointPadding
  trajectory := []

/-! ## Theorems -/

/-- C1: for a negative signed distance the potential returns `-d + 0.5*epsilon`
and negates the gradient; hence on `d < 0` the cost is strictly decreasing in
`d` with slope exactly `-1`. -/
theorem computeCostFromDist_penetration {K : Type} [LinearOrderedField K]
    (epsilon : K) (hε : 0 < epsilon) (g : vec3 K) :
    (∀ d : K, d < 0 →
        (computeCostFromDist d epsilon g).1 = -d + 0.5 * epsilon ∧
        (computeCostFromDist d epsilon g).2 = ⟨-g.x, -g.y, -g.z⟩) ∧
    (∀ d1 d2 : K, d1 < 0 → d2 < 0 →
        (computeCostFromDist d1 epsilon g).1 - (computeCostFromDist d2 epsilon g).1
          = d2 - d1) ∧
    (∀ d1 d2 : K, d1 < 0 → d2 < 0 → d1 < d2 →
        (computeCostFromDist d2 epsilon g).1 < (computeCostFromDist d1 epsilon g).1) := by
  refine ⟨?_, ?_, ?_⟩
  · intro d hd
    simp [computeCostFromDist, hd, vec3.scale]
  · intro d1 d2 h1 h2
    simp only [computeCostFromDist, h1, h2, if_true]
    ring
  · intro d1 d2 h1 h2 h12
    simp only [computeCostFromDist, h1, h2, if_true]
    linarith

/-- Witness for C1 at `epsilon = 2`, `g = (1, 2, 3)` over the rationals. -/
theorem computeCostFromDist_penetration_witness :
    (0 : ℚ) < 2 ∧
    (computeCostFromDist (-3 : ℚ) 2 ⟨1, 2, 3⟩).1 = 4 ∧
    (computeCostFromDist (-3 : ℚ) 2 ⟨1, 2, 3⟩).2 = ⟨-1, -2, -3⟩ := by
  have h := (computeCostFromDist_penetration (2 : ℚ) (by norm_num) ⟨1, 2, 3⟩).1 (-3)
    (by norm_num)
  refine ⟨by norm_num, ?_, h.2⟩
  rw [h.1]
  norm_num

/-- C2: in the near zone `0 ≤ d ≤ epsilon` the potential returns
`0.5*(d - epsilon)^2/epsilon` and multiplies every gradient component by
`0.5*(d - epsilon)/epsilon`. -/
theorem computeCostFromDist_near {K : Type} [LinearOrderedField K]
    (epsilon d : K) (hε : 0 < epsilon) (h0 : 0 ≤ d) (h1 : d ≤ epsilon) (g : vec3 K) :
    (computeCostFromDist d epsilon g).1 = 0.5 * (d - epsilon) ^ 2 / epsilon ∧
    (computeCostFromDist d epsilon g).2 =
      ⟨g.x * (0.5 * (d - epsilon) / epsilon), g.y * (0.5 * (d - epsilon) / epsilon),
       g.z * (0.5 * (d - epsilon) / epsilon)⟩ := by
  have hn : ¬ d < 0 := not_lt.mpr h0
  simp only [computeCostFromDist, hn, h1, if_true, if_false, vec3.scale]
  refine ⟨by ring, ?_⟩
  ext <;> dsimp only <;> ring

/-- Witness for C2 at `epsilon = 2`, `d = 1`, `g = (4, 8, 12)`. -/
theorem computeCostFromDist_near_witness :
    (computeCostFromDist (1 : ℚ) 2 ⟨4, 8, 12⟩).1 = 1 / 4 ∧
    (computeCostFromDist (1 : ℚ) 2 ⟨4, 8, 12⟩).2 = ⟨-1, -2, -3⟩ := by
  have h := computeCostFromDist_near (2 : ℚ) 1 (by norm_num) (by norm_num) (by norm_num)
    ⟨4, 8, 12⟩
  refine ⟨?_, ?_⟩
  · rw [h.1]; norm_num
  · rw [h.2]; ext <;> norm_num

/-- C3: in the far zone `d > epsilon` the potential returns cost `0` and leaves
the gradient exactly as it was passed in. -/
theorem computeCostFromDist_far {K : Type} [LinearOrderedField K]
    (epsilon d : K) (hε : 0 < epsilon) (hd : epsilon < d) (g : vec3 K) :
    computeCostFromDist d epsilon g = (0, g) := by
  have hn : ¬ d < 0 := not_lt.mpr (le_of_lt (lt_trans hε hd))
  have hn2 : ¬ d ≤ epsilon := not_le.mpr hd
  simp [computeCostFromDist, hn, hn2]

/-- Witness for C3 at `epsilon = 2`, `d = 5`. -/
theorem computeCostFromDist_far_witness :
    computeCostFromDist (5 : ℚ) 2 ⟨1, 2, 3⟩ = (0, ⟨1, 2, 3⟩) :=
  computeCostFromDist_far (2 : ℚ) 5 (by norm_num) (by norm_num) ⟨1, 2, 3⟩


/-- The potential's cost as a function of the signed distance. -/
theorem cost_eventuallyEq_near (epsilon d : ℝ) (h0 : 0 < d) (g : vec3 ℝ) :
    (fun t => (computeCostFromDist t epsilon g).1) =ᶠ[nhdsWithin d (Set.Iic epsilon)]
      (fun t => (t - epsilon) * (t - epsilon) * 0.5 / epsilon) := by
  have hpos : ∀ᶠ t in nhdsWithin d (Set.Iic epsilon), 0 < t :=
    Filter.Eventually.filter_mono nhdsWithin_le_nhds (lt_mem_nhds h0)
  have hle : ∀ᶠ t in nhdsWithin d (Set.Iic epsilon), t ≤ epsilon :=
    eventually_mem_nhdsWithin
  filter_upwards [hpos, hle] with t ht0 ht1
  have hn : ¬ t < 0 := not_lt.mpr ht0.le
  simp [computeCostFromDist, hn, ht1]

theorem quad_hasDerivAt (epsilon d : ℝ) :
    HasDerivAt (fun t : ℝ => (t - epsilon) * (t - epsilon) * 0.5 / epsilon)
      ((d - epsilon) / epsilon) d := by
  have h1 : HasDerivAt (fun t : ℝ => t - epsilon) 1 d := (hasDerivAt_id d).sub_const epsilon
  have h2 := ((h1.mul h1).mul_const (0.5 : ℝ)).div_const epsilon
  convert h2 using 1
  ring

theorem cost_hasDerivAt_near (epsilon d : ℝ) (h0 : 0 < d) (h1 : d < epsilon) (g : vec3 ℝ) :
    HasDerivAt (fun t => (computeCostFromDist t epsilon g).1) ((d - epsilon) / epsilon) d := by
  have hE : (fun t => (computeCostFromDist t epsilon g).1) =ᶠ[nhds d]
      (fun t => (t - epsilon) * (t - epsilon) * 0.5 / epsilon) := by
    filter_upwards [lt_mem_nhds h0, gt_mem_nhds h1] with t ht0 ht1
    have hn : ¬ t < 0 := not_lt.mpr ht0.le
    simp [computeCostFromDist, hn, le_of_lt ht1]
  exact (quad_hasDerivAt epsilon d).congr_of_eventuallyEq hE

theorem cost_hasDerivAt_neg (epsilon d : ℝ) (hd : d < 0) (g : vec3 ℝ) :
    HasDerivAt (fun t => (computeCostFromDist t epsilon g).1) (-1) d := by
  have hE : (fun t => (computeCostFromDist t epsilon g).1) =ᶠ[nhds d]
      (fun t => -t + 0.5 * epsilon) := by
    filter_upwards [gt_mem_nhds hd] with t ht
    simp [computeCostFromDist, ht]
  have h : HasDerivAt (fun t : ℝ => -t + 0.5 * epsilon) (-1) d :=
    ((hasDerivAt_id d).neg).add_const _
  exact h.congr_of_eventuallyEq hE

theorem cost_hasDerivAt_epsilon (epsilon : ℝ) (hε : 0 < epsilon) (g : vec3 ℝ) :
    HasDerivAt (fun t => (computeCostFromDist t epsilon g).1) 0 epsilon := by
  have hval : (computeCostFromDist epsilon epsilon g).1 = 0 := by
    simp [computeCostFromDist, not_lt.mpr hε.le]
  have hL : HasDerivWithinAt (fun t => (computeCostFromDist t epsilon g).1) 0
      (Set.Iic epsilon) epsilon := by
    have hq := (quad_hasDerivAt epsilon epsilon).hasDerivWithinAt (s := Set.Iic epsilon)
    simp only [sub_self, zero_div] at hq
    refine hq.congr_of_eventuallyEq (cost_eventuallyEq_near epsilon epsilon hε g) ?_
    simp [hval]
  have hR : HasDerivWithinAt (fun t => (computeCostFromDist t epsilon g).1) 0
      (Set.Ici epsilon) epsilon := by
    refine (hasDerivWithinAt_const epsilon (Set.Ici epsilon) (0 : ℝ)).congr ?_ hval
    intro t ht
    rcases eq_or_lt_of_le (Set.mem_Ici.mp ht) with h | h
    · rw [← h]; exact hval
    · have hn : ¬ t < 0 := not_lt.mpr (hε.trans h).le
      simp [computeCostFromDist, hn, not_le.mpr h]
  have hU := hL.union hR
  rw [Set.Iic_union_Ici, hasDerivWithinAt_univ] at hU
  exact hU

/-- C4: for `epsilon > 0` the cost, as a real function of the distance, is C¹
at `d = epsilon`: its value there is `0`, it is continuous there, it has
derivative `0` there, and both the cost and its derivative tend to `0` as `d`
tends to `epsilon` from below. -/
theorem computeCostFromDist_C1_at_epsilon (epsilon : ℝ) (hε : 0 < epsilon) (g : vec3 ℝ) :
    (computeCostFromDist epsilon epsilon g).1 = 0 ∧
    ContinuousAt (fun d => (computeCostFromDist d epsilon g).1) epsilon ∧
    HasDerivAt (fun d => (computeCostFromDist d epsilon g).1) 0 epsilon ∧
    Filter.Tendsto (fun d => (computeCostFromDist d epsilon g).1)
      (nhdsWithin epsilon (Set.Iio epsilon)) (nhds 0) ∧
    Filter.Tendsto (deriv (fun d => (computeCostFromDist d epsilon g).1))
      (nhdsWithin epsilon (Set.Iio epsilon)) (nhds 0) := by
  have hval : (computeCostFromDist epsilon epsilon g).1 = 0 := by
    simp [computeCostFromDist, not_lt.mpr hε.le]
  have hD := cost_hasDerivAt_epsilon epsilon hε g
  have hC := hD.continuousAt
  refine ⟨hval, hC, hD, ?_, ?_⟩
  · have h := hC.tendsto
    simp only [hval] at h
    exact h.mono_left nhdsWithin_le_nhds
  · have hlin : Filter.Tendsto (fun d : ℝ => (d - epsilon) / epsilon)
        (nhdsWithin epsilon (Set.Iio epsilon)) (nhds 0) := by
      have hc : ContinuousAt (fun d : ℝ => (d - epsilon) / epsilon) epsilon := by
        fun_prop
      have h := hc.tendsto
      simp only [sub_self, zero_div] at h
      exact h.mono_left nhdsWithin_le_nhds
    refine hlin.congr' ?_
    have hpos : ∀ᶠ t in nhdsWithin epsilon (Set.Iio epsilon), 0 < t :=
      Filter.Eventually.filter_mono nhdsWithin_le_nhds (lt_mem_nhds hε)
    have hlt : ∀ᶠ t in nhdsWithin epsilon (Set.Iio epsilon), t < epsilon :=
      eventually_mem_nhdsWithin
    filter_upwards [hpos, hlt] with t ht0 ht1
    exact ((cost_hasDerivAt_near epsilon t ht0 ht1 g).deriv).symm

theorem computeCostFromDist_C1_at_epsilon_witness :
    HasDerivAt (fun d : ℝ => (computeCostFromDist d 2 ⟨1, 2, 3⟩).1) 0 2 :=
  (computeCostFromDist_C1_at_epsilon 2 (by norm_num) ⟨1, 2, 3⟩).2.2.1

/-- C5: evaluation at the failing input `d = 1/2`, `epsilon = 1`.  In the near
zone the direction is multiplied by `-1/4` while the derivative of the cost is
`-1/2`; in the penetration zone (`d = -1`) the factor `-1` is the derivative. -/
theorem computeCostFromDist_gradient_half_of_derivative :
    (computeCostFromDist (1 / 2 : ℝ) 1 ⟨1, 0, 0⟩).2 = ⟨-1 / 4, 0, 0⟩ ∧
    HasDerivAt (fun d : ℝ => (computeCostFromDist d 1 ⟨1, 0, 0⟩).1) (-1 / 2) (1 / 2) ∧
    (computeCostFromDist (-1 : ℝ) 1 ⟨1, 0, 0⟩).2 = ⟨-1, 0, 0⟩ ∧
    HasDerivAt (fun d : ℝ => (computeCostFromDist d 1 ⟨1, 0, 0⟩).1) (-1) (-1) := by
  refine ⟨?_, ?_, ?_, ?_⟩
  · have hn : ¬ ((1 / 2 : ℝ) < 0) := by norm_num
    have hl : (1 / 2 : ℝ) ≤ 1 := by norm_num
    simp only [computeCostFromDist, hn, hl, if_true, if_false, vec3.scale]
    ext <;> norm_num
  · have h := cost_hasDerivAt_near 1 (1 / 2) (by norm_num) (by norm_num) ⟨1, 0, 0⟩
    convert h using 1
    norm_num
  · have hn : (-1 : ℝ) < 0 := by norm_num
    simp only [computeCostFromDist, hn, if_true, vec3.scale]
    ext <;> norm_num
  · exact cost_hasDerivAt_neg 1 (-1) (by norm_num) ⟨1, 0, 0⟩

theorem sqrtQ_25 : sqrtQ 25 = 5 := by
  have h1 : Nat.sqrt 25 = 5 := Nat.sqrt_eq 5
  have h2 : ((25 : ℚ)).num.natAbs = 25 := by
    have : ((25 : ℚ)) = ((25 : ℕ) : ℚ) := by norm_num
    rw [this, Rat.num_natCast]; rfl
  have h3 : ((25 : ℚ)).den = 1 := by
    have : ((25 : ℚ)) = ((25 : ℕ) : ℚ) := by norm_num
    rw [this, Rat.den_natCast]
  simp [sqrtQ, h1, h2, h3]

/-- The example helper evaluated by hand: the pair is 2 apart with
`epsilon_self = 4`, so the cost is `1/2` and the Jacobian of link 3 enters the
buffer with weight `1/2`. -/
theorem demo_getSelfCollisions :
    getSelfCollisions sqrtQ (demoHelper ℚ false 4 []) 0 ⟨0, 0, 0, ⟨0, 0, 0⟩, 1⟩ ⟨0, 0, 0⟩
      (List.replicate 6 0) = ⟨1 / 2, ⟨3 / 40, 1 / 10, 0⟩, [3, 5 / 2, 2, 3 / 2, 1, 1 / 2]⟩ := by
  have hadj : ¬ Int.lor ((3 : Int) <<< (16 : Int)) (Int.land 0 65535) = 131073 := by decide
  simp [getSelfCollisions, hadj, demoHelper, demoModule, demoRobot, List.range_succ, selfCollisionStep,
    selfCollisionSphere, selfCollisionPair, mod.areAdjacent, spherePos, distBetweenCenters,
    vec3.sub, vec3.zero, vec3.add, vec3.scale]
  norm_num [sqrtQ_25, computeCostFromDist, accumulateJacobian, vec3.scale, List.range_succ]

theorem applyConfiguration_active_spheres {K : Type} (H : SphereCollisionHelper K)
    (q : List K) (body_index : Nat) :
    (applyConfiguration H q body_index).module.active_spheres = H.module.active_spheres := by
  unfold applyConfiguration; split <;> rfl

theorem applyConfiguration_dims {K : Type} (H : SphereCollisionHelper K)
    (q : List K) (body_index : Nat) :
    (applyConfiguration H q body_index).ncspace = H.ncspace ∧
    (applyConfiguration H q body_index).nwkspace = H.nwkspace := by
  unfold applyConfiguration; split <;> exact ⟨rfl, rfl⟩

/-- The terms computed by `getCost` once the evaluated sphere exists and the
Jacobian has the asserted size. -/
theorem getCost_eq_fill {K : Type} [LinearOrderedField K] (sqrt : K → K)
    (H : SphereCollisionHelper K) (q : List K) (body_index : Nat) (s : Sphere K)
    (hs : H.module.active_spheres[body_index]? = some s)
    (hJ : (sphereJacobian (applyConfiguration H q body_index) s).length
            = H.ncspace * H.nwkspace) :
    getCost sqrt H q body_index = some (fillOutputs H
      { cost_sdf := (envTerm (applyConfiguration H q body_index) s).1
        gradient_sdf := (envTerm (applyConfiguration H q body_index) s).2
        cost_self := (selfTerm sqrt (applyConfiguration H q body_index) body_index s).cost
        gradient_self :=
          (selfTerm sqrt (applyConfiguration H q body_index) body_index s).gradient
        otherJacobian :=
          (selfTerm sqrt (applyConfiguration H q body_index) body_index s).otherJacobian
        jacobian := sphereJacobian (applyConfiguration H q body_index) s }) := by
  have hd := applyConfiguration_dims H q body_index
  have hs' : (applyConfiguration H q body_index).module.active_spheres[body_index]? = some s := by
    rw [applyConfiguration_active_spheres]; exact hs
  have hJ' : (sphereJacobian (applyConfiguration H q body_index) s).length
      = (applyConfiguration H q body_index).ncspace
        * (applyConfiguration H q body_index).nwkspace := by
    rw [hd.1, hd.2]; exact hJ
  simp only [getCost, getCostTerms, hs', hJ', if_true, Option.map_some']

/-- C6: when the evaluated sphere exists and its Jacobian has the asserted
size, `getCost` returns, and for all `i < nwkspace`, `j < ncspace` it writes
`dx_dq[i,j] = Jacobian[i,j]*(obs_factor+obs_factor_self)
 - otherJacobian[i,j]*obs_factor_self/cost_self` when `cost_self > 1e-7` and
`dx_dq[i,j] = Jacobian[i,j]*obs_factor` otherwise; in particular for
`cost_self = 0` the entry is `Jacobian[i,j]*obs_factor`. -/
theorem getCost_dx_dq {K : Type} [LinearOrderedField K] (sqrt : K → K)
    (H : SphereCollisionHelper K) (q : List K) (body_index : Nat) (s : Sphere K)
    (hs : H.module.active_spheres[body_index]? = some s)
    (hJ : (sphereJacobian (applyConfiguration H q body_index) s).length
            = H.ncspace * H.nwkspace) :
    ∃ out, getCost sqrt H q body_index = some out ∧
      ∀ (i : Fin H.nwkspace) (j : Fin H.ncspace),
        (out.dx_dq i j =
          if (selfTerm sqrt (applyConfiguration H q body_index) body_index s).cost > 1 / 10 ^ 7
          then
            (sphereJacobian (applyConfiguration H q body_index) s).getD
                (i.val * H.ncspace + j.val) 0 * (H.obs_factor + H.obs_factor_self)
              - (selfTerm sqrt (applyConfiguration H q body_index) body_index
                    s).otherJacobian.getD (i.val * H.ncspace + j.val) 0
                  * H.obs_factor_self
                  / (selfTerm sqrt (applyConfiguration H q body_index) body_index s).cost
          else
            (sphereJacobian (applyConfiguration H q body_index) s).getD
                (i.val * H.ncspace + j.val) 0 * H.obs_factor) ∧
        ((selfTerm sqrt (applyConfiguration H q body_index) body_index s).cost = 0 →
          out.dx_dq i j =
            (sphereJacobian (applyConfiguration H q body_index) s).getD
                (i.val * H.ncspace + j.val) 0 * H.obs_factor) := by
  refine ⟨_, getCost_eq_fill sqrt H q body_index s hs hJ, ?_⟩
  intro i j
  have hthr : (0.0000001 : K) = 1 / 10 ^ 7 := by norm_num
  constructor
  · simp only [fillOutputs, hthr]
    split
    · ring
    · rfl
  · intro h0
    have hn : ¬ ((0 : K) > 1 / 10 ^ 7) := by
      simp only [gt_iff_lt, not_lt]; positivity
    simp only [fillOutputs, hthr, h0, hn, if_false]

/-- Witness for C6 on the example helper with self-collision on:
`cost_self = 1/2`, so `dx_dq[0,0] = 1*(1+1) - 3*1/(1/2) = -4`. -/
theorem getCost_dx_dq_witness :
    ∃ out, getCost sqrtQ (demoHelper ℚ false 4 []) [] 0 = some out ∧
      out.dx_dq ⟨0, by decide⟩ ⟨0, by decide⟩ = -4 := by
  obtain ⟨out, h, hf⟩ := getCost_dx_dq sqrtQ (demoHelper ℚ false 4 []) [] 0
    ⟨0, 0, 0, ⟨0, 0, 0⟩, 1⟩ rfl rfl
  refine ⟨out, h, ?_⟩
  have hself : selfTerm sqrtQ (applyConfiguration (demoHelper ℚ false 4 []) [] 0) 0
      ⟨0, 0, 0, ⟨0, 0, 0⟩, 1⟩ = ⟨1 / 2, ⟨3 / 40, 1 / 10, 0⟩, [3, 5 / 2, 2, 3 / 2, 1, 1 / 2]⟩ := by
    rw [← demo_getSelfCollisions]; rfl
  have hjac : sphereJacobian (applyConfiguration (demoHelper ℚ false 4 []) [] 0)
      ⟨0, 0, 0, ⟨0, 0, 0⟩, 1⟩ = [1, 2, 3, 4, 5, 6] := rfl
  rw [(hf ⟨0, by decide⟩ ⟨0, by decide⟩).1, hself, hjac]
  norm_num [demoHelper]

/-- C7: with `gradient_env`, `gradient_self` and `cost_self` the outputs of the
two evaluators (zero for a disabled channel), `getCost` writes
`cgrad[i] = obs_factor*gradient_env[i] + obs_factor_self*gradient_self[i]/cost_self`
when `cost_self > 1e-7` and `cgrad[i] = obs_factor*gradient_env[i]` when
`cost_self ≤ 1e-7`. -/
theorem getCost_cgrad {K : Type} [LinearOrderedField K] (sqrt : K → K)
    (H : SphereCollisionHelper K) (q : List K) (body_index : Nat) (s : Sphere K)
    (hs : H.module.active_spheres[body_index]? = some s)
    (hJ : (sphereJacobian (applyConfiguration H q body_index) s).length
            = H.ncspace * H.nwkspace)
    (gradient_env gradient_self : vec3 K) (cost_self : K)
    (henv : gradient_env =
      if H.module.info.noEnvironmentalCollision = true then vec3.zero
      else (getSDFCollisions (applyConfiguration H q body_index) s
              (spherePos (applyConfiguration H q body_index) s) vec3.zero).2)
    (hself : gradient_self =
      if H.module.info.noSelfCollision = true then vec3.zero
      else (getSelfCollisions sqrt (applyConfiguration H q body_index) body_index s
              (spherePos (applyConfiguration H q body_index) s)
              (List.replicate (H.nwkspace * H.ncspace) 0)).gradient)
    (hcost : cost_self =
      if H.module.info.noSelfCollision = true then 0
      else (getSelfCollisions sqrt (applyConfiguration H q body_index) body_index s
              (spherePos (applyConfiguration H q body_index) s)
              (List.replicate (H.nwkspace * H.ncspace) 0)).cost) :
    ∃ out, getCost sqrt H q body_index = some out ∧
      ∀ i : Fin H.nwkspace,
        (cost_self > 1 / 10 ^ 7 →
          out.cgrad i = H.obs_factor * gradient_env.get (Fin.castLE H.nwkspace_le i)
            + H.obs_factor_self * gradient_self.get (Fin.castLE H.nwkspace_le i) / cost_self) ∧
        (cost_self ≤ 1 / 10 ^ 7 →
          out.cgrad i = H.obs_factor * gradient_env.get (Fin.castLE H.nwkspace_le i)) := by
  refine ⟨_, getCost_eq_fill sqrt H q body_index s hs hJ, ?_⟩
  have hthr : (0.0000001 : K) = 1 / 10 ^ 7 := by norm_num
  have hd := applyConfiguration_dims H q body_index
  have hinfo : (applyConfiguration H q body_index).module.info = H.module.info := by
    unfold applyConfiguration; split <;> rfl
  have e1 : (envTerm (applyConfiguration H q body_index) s).2 = gradient_env := by
    rw [henv]; unfold envTerm; rw [hinfo]
    cases H.module.info.noEnvironmentalCollision <;> simp
  have e2 : (selfTerm sqrt (applyConfiguration H q body_index) body_index s).gradient
      = gradient_self := by
    rw [hself]; unfold selfTerm; rw [hinfo, hd.1, hd.2]
    cases H.module.info.noSelfCollision <;> simp
  have e3 : (selfTerm sqrt (applyConfiguration H q body_index) body_index s).cost
      = cost_self := by
    rw [hcost]; unfold selfTerm; rw [hinfo, hd.1, hd.2]
    cases H.module.info.noSelfCollision <;> simp
  intro i
  simp only [fillOutputs, hthr, e1, e2, e3]
  constructor
  · intro h; rw [if_pos h]
  · intro h; rw [if_neg (not_lt.mpr h)]

theorem getCost_cgrad_witness :
    ∃ out, getCost sqrtQ (demoHelper ℚ true 4 []) [] 0 = some out ∧
      out.cgrad ⟨0, by decide⟩ = 1 * (1 : ℚ) := by
  obtain ⟨out, h, hc⟩ := getCost_cgrad sqrtQ (demoHelper ℚ true 4 []) [] 0
    ⟨0, 0, 0, ⟨0, 0, 0⟩, 1⟩ rfl rfl ⟨1, 0, 0⟩ vec3.zero 0
    (by simp [demoHelper, demoModule, getSDFCollisions, sdfStep, computeCostFromDist,
          applyConfiguration]; norm_num)
    (by simp [demoHelper, demoModule])
    (by simp [demoHelper, demoModule])
  exact ⟨out, h, (hc ⟨0, by decide⟩).2 (by norm_num)⟩

/-- C8: evaluation at the failing input.  The only distance field reports
distance `10` and gradient `(1, 0, 0)`; the sphere has radius `1` and
`epsilon = 1`, so the radius-adjusted distance `9` lies in the far zone and
`getSDFCollisions` returns cost `0`, yet it hands back the gradient of the
field and, with self-collision off, `getCost` writes `cgrad[0] = 1` and not `0`. -/
theorem getCost_far_zone_gradient_kept :
    getSDFCollisions (demoHelper ℚ true 4 []) ⟨0, 0, 0, ⟨0, 0, 0⟩, 1⟩ ⟨0, 0, 0⟩ vec3.zero
      = (0, ⟨1, 0, 0⟩) ∧
    ∃ out, getCost sqrtQ (demoHelper ℚ true 4 []) [] 0 = some out ∧
      out.cost = 0 ∧ out.cgrad ⟨0, by decide⟩ = 1 := by
  have hsdf : getSDFCollisions (demoHelper ℚ true 4 []) ⟨0, 0, 0, ⟨0, 0, 0⟩, 1⟩ ⟨0, 0, 0⟩
      vec3.zero = (0, ⟨1, 0, 0⟩) := by
    simp [demoHelper, demoModule, getSDFCollisions, sdfStep, computeCostFromDist]
    norm_num
  refine ⟨hsdf, _, getCost_eq_fill sqrtQ (demoHelper ℚ true 4 []) [] 0
    ⟨0, 0, 0, ⟨0, 0, 0⟩, 1⟩ rfl rfl, ?_, ?_⟩
  · have henv : envTerm (applyConfiguration (demoHelper ℚ true 4 []) [] 0)
        ⟨0, 0, 0, ⟨0, 0, 0⟩, 1⟩ = (0, ⟨1, 0, 0⟩) := by
      rw [← hsdf]; rfl
    simp only [henv]
    simp [fillOutputs, selfTerm, applyConfiguration, demoHelper, demoModule]
  · have henv : envTerm (applyConfiguration (demoHelper ℚ true 4 []) [] 0)
        ⟨0, 0, 0, ⟨0, 0, 0⟩, 1⟩ = (0, ⟨1, 0, 0⟩) := by
      rw [← hsdf]; rfl
    simp only [henv]
    simp [fillOutputs, selfTerm, applyConfiguration, demoHelper, demoModule, vec3.get]

theorem foldl_range'_eq_loopFrom {α β : Type} (f : β → α → β) (bi : Nat) (l : List α) :
    ∀ (s : Nat) (acc : β),
      (List.range' s l.length).foldl
        (fun acc i => if i = bi then acc else
          match l[i - s]? with
          | none => acc
          | some a => f acc a) acc
      = loopFrom f bi s l acc := by
  induction l with
  | nil => intro s acc; rfl
  | cons a rest ih =>
    intro s acc
    rw [List.length_cons, List.range'_succ, List.foldl_cons, loopFrom]
    have hstep : (if s = bi then acc else
        match (a :: rest)[s - s]? with
        | none => acc
        | some x => f acc x) = (if s = bi then acc else f acc a) := by
      simp
    rw [hstep, ← ih (s + 1)]
    apply List.foldl_ext
    intro b i hi
    have hlt : s + 1 ≤ i := (List.mem_range'_1.mp hi).1
    have hidx : i - s = (i - (s + 1)) + 1 := by omega
    rw [hidx, List.getElem?_cons_succ]

theorem getSelfCollisions_eq_loopFrom {K : Type} [LinearOrderedField K] (sqrt : K → K)
    (H : SphereCollisionHelper K) (body_index : Nat) (current_sphere : Sphere K)
    (position : vec3 K) (otherJacobian : List K) :
    getSelfCollisions sqrt H body_index current_sphere position otherJacobian
      = loopFrom (selfCollisionSphere sqrt H current_sphere position) body_index 0
          (H.module.active_spheres ++ H.module.inactive_spheres)
          { cost := 0, gradient := vec3.zero, otherJacobian := otherJacobian } := by
  rw [← foldl_range'_eq_loopFrom, List.length_append, ← List.range_eq_range']
  unfold getSelfCollisions
  apply List.foldl_ext
  intro acc i _
  simp only [selfCollisionStep, Nat.sub_zero, List.getElem?_append]
  by_cases hi : i < H.module.active_spheres.length
  · simp only [hi, if_true]
    cases H.module.active_spheres[i]? <;> rfl
  · simp only [hi, if_false]
    cases H.module.inactive_spheres[i - H.module.active_spheres.length]? <;> rfl

theorem loopFrom_shift {α β : Type} (f : β → α → β) (bi : Nat) (l : List α) :
    ∀ (i : Nat) (acc : β), loopFrom f (bi + 1) (i + 1) l acc = loopFrom f bi i l acc := by
  induction l with
  | nil => intro i acc; rfl
  | cons a rest ih =>
    intro i acc
    simp only [loopFrom, Nat.add_right_cancel_iff]
    exact ih (i + 1) _

theorem loopFrom_past {α β : Type} (f : β → α → β) (bi : Nat) (l : List α) :
    ∀ (i : Nat) (acc : β), bi < i → loopFrom f bi i l acc = l.foldl f acc := by
  induction l with
  | nil => intro i acc _; rfl
  | cons a rest ih =>
    intro i acc h
    have hne : i ≠ bi := by omega
    simp only [loopFrom, hne, if_false, List.foldl_cons]
    exact ih (i + 1) _ (by omega)

theorem loopFrom_eraseIdx {α β : Type} (f : β → α → β) (bi : Nat) (l : List α) :
    ∀ (k i : Nat) (acc : β) (hk : k < l.length), i + k ≠ bi →
      (∀ b, f b (l.get ⟨k, hk⟩) = b) →
      loopFrom f (if i + k < bi then bi - 1 else bi) i (l.eraseIdx k) acc
        = loopFrom f bi i l acc := by
  induction l with
  | nil => intro k i acc hk; simp at hk
  | cons a rest ih =>
    intro k i acc hk hne hf
    cases k with
    | zero =>
      have hi : i ≠ bi := by simpa using hne
      have hfa : f acc a = acc := hf acc
      simp only [List.eraseIdx_cons_zero, loopFrom, hi, if_false, hfa, Nat.add_zero]
      by_cases hlt : i < bi
      · rw [if_pos hlt]
        have hb : bi = (bi - 1) + 1 := by omega
        conv_rhs => rw [hb]
        exact (loopFrom_shift f (bi - 1) rest i acc).symm
      · rw [if_neg hlt]
        have hgt : bi < i := by omega
        rw [loopFrom_past f bi rest i acc hgt, loopFrom_past f bi rest (i + 1) acc (by omega)]
    | succ k =>
      have hk' : k < rest.length := by simpa using hk
      have hcond : i + (k + 1) = i + 1 + k := by omega
      have hacc : (if i = (if i + (k + 1) < bi then bi - 1 else bi) then acc else f acc a)
          = (if i = bi then acc else f acc a) := by
        by_cases hlt : i + (k + 1) < bi
        · have h1 : i ≠ bi - 1 := by omega
          have h2 : i ≠ bi := by omega
          simp [hlt, h1, h2]
        · simp [hlt]
      simp only [List.eraseIdx_cons_succ, loopFrom, hacc]
      have := ih k (i + 1) (if i = bi then acc else f acc a) hk' (by omega)
        (fun b => by simpa using hf b)
      rw [← this, hcond]

/-- C9: for a sphere set of two spheres with non-negative radii, on different
links and not adjacent, and `epsilon_self > 0`, the self-collision cost of one
of them is `0` when the centers are `r1 + r2 + epsilon_self` apart and
`0.5*epsilon_self` when they are `r1 + r2` apart. -/
theorem getSelfCollisions_two_spheres {K : Type} [LinearOrderedField K] (sqrt : K → K)
    (H : SphereCollisionHelper K) (s0 s1 : Sphere K) (body_index : Nat)
    (current other : Sphere K) (position : vec3 K) (otherJacobian : List K)
    (hset : H.module.active_spheres ++ H.module.inactive_spheres = [s0, s1])
    (hpick : (body_index = 0 ∧ current = s0 ∧ other = s1) ∨
             (body_index = 1 ∧ current = s1 ∧ other = s0))
    (hr1 : 0 ≤ current.radius) (hr2 : 0 ≤ other.radius) (hε : 0 < H.epsilon_self)
    (hlink : current.linkindex ≠ other.linkindex)
    (hadj : H.module.areAdjacent current.linkindex other.linkindex = false) :
    (distBetweenCenters sqrt position (spherePos H other)
        = current.radius + other.radius + H.epsilon_self →
      (getSelfCollisions sqrt H body_index current position otherJacobian).cost = 0) ∧
    (distBetweenCenters sqrt position (spherePos H other)
        = current.radius + other.radius →
      (getSelfCollisions sqrt H body_index current position otherJacobian).cost
        = 0.5 * H.epsilon_self) := by
  have hloop : getSelfCollisions sqrt H body_index current position otherJacobian
      = selfCollisionPair sqrt H current position
          { cost := 0, gradient := vec3.zero, otherJacobian := otherJacobian } other := by
    rw [getSelfCollisions_eq_loopFrom, hset]
    have hsph : ∀ acc, selfCollisionSphere sqrt H current position acc other
        = selfCollisionPair sqrt H current position acc other := by
      intro acc
      simp [selfCollisionSphere, hlink, hadj]
    rcases hpick with ⟨hb, _, ho⟩ | ⟨hb, _, ho⟩
    · subst hb; subst ho
      simp [loopFrom, hsph]
    · subst hb; subst ho
      simp [loopFrom, hsph]
  have hne : H.epsilon_self ≠ 0 := ne_of_gt hε
  constructor
  · intro hd
    rw [hloop]
    simp only [selfCollisionPair, hd]
    have e : current.radius + other.radius + H.epsilon_self - other.radius - current.radius
        = H.epsilon_self := by ring
    have hn : ¬ H.epsilon_self < 0 := not_lt.mpr hε.le
    simp [e, computeCostFromDist, hn]
  · intro hd
    rw [hloop]
    simp only [selfCollisionPair, hd]
    have e : current.radius + other.radius - other.radius - current.radius = 0 := by ring
    simp only [e, computeCostFromDist, lt_irrefl, if_false, hε.le, if_true, zero_add, zero_sub]
    field_simp
    ring

/-- Witness for C9: unit sphere at the origin, radius-2 sphere at `(3, 4, 0)`,
`epsilon_self = 2`, so that the centers are `1 + 2 + 2 = 5` apart. -/
theorem getSelfCollisions_two_spheres_witness :
    (getSelfCollisions sqrtQ (demoHelper ℚ false 2 []) 0 ⟨0, 0, 0, ⟨0, 0, 0⟩, 1⟩
      ⟨0, 0, 0⟩ []).cost = 0 :=
  (getSelfCollisions_two_spheres sqrtQ (demoHelper ℚ false 2 [])
    ⟨0, 0, 0, ⟨0, 0, 0⟩, 1⟩ ⟨0, 3, 3, ⟨3, 4, 0⟩, 2⟩ 0
    ⟨0, 0, 0, ⟨0, 0, 0⟩, 1⟩ ⟨0, 3, 3, ⟨3, 4, 0⟩, 2⟩ ⟨0, 0, 0⟩ [] rfl
    (Or.inl ⟨rfl, rfl, rfl⟩) (by norm_num) (by norm_num)
    (by show (0 : ℚ) < 2; norm_num) (by decide) (by decide)).1
    (by
      simp only [distBetweenCenters, spherePos, demoHelper, demoModule, demoRobot, vec3.sub]
      norm_num [sqrtQ_25])

theorem selfCollisionSphere_removeSphere {K : Type} [LinearOrderedField K] (sqrt : K → K)
    (H : SphereCollisionHelper K) (k : Nat) (current_sphere : Sphere K) (position : vec3 K) :
    selfCollisionSphere sqrt { H with module := removeSphere H.module k } current_sphere position
      = selfCollisionSphere sqrt H current_sphere position := by
  funext acc s
  unfold removeSphere
  split <;> rfl

theorem removeSphere_spheres {K : Type} (M : mod K) (k : Nat) :
    (removeSphere M k).active_spheres ++ (removeSphere M k).inactive_spheres
      = (M.active_spheres ++ M.inactive_spheres).eraseIdx k := by
  unfold removeSphere
  split
  · next h => simp only [List.eraseIdx_append_of_lt_length h]
  · next h => simp only [List.eraseIdx_append_of_length_le (not_lt.mp h)]

/-- C10: a sphere other than the evaluated one that shares the link index of the
evaluated sphere contributes nothing: cost, gradient and Jacobian buffer of
`getSelfCollisions` are those obtained on the sphere set without that sphere
(the index of the evaluated sphere moves down by one when the removed sphere
precedes it), whatever the positions of the spheres. -/
theorem getSelfCollisions_same_link_removed {K : Type} [LinearOrderedField K]
    (sqrt : K → K) (H : SphereCollisionHelper K) (body_index k : Nat)
    (current_sphere other : Sphere K) (position : vec3 K) (otherJacobian : List K)
    (hk : (H.module.active_spheres ++ H.module.inactive_spheres)[k]? = some other)
    (hne : k ≠ body_index)
    (hlink : other.linkindex = current_sphere.linkindex) :
    getSelfCollisions sqrt { H with module := removeSphere H.module k }
        (if k < body_index then body_index - 1 else body_index)
        current_sphere position otherJacobian
      = getSelfCollisions sqrt H body_index current_sphere position otherJacobian := by
  rw [getSelfCollisions_eq_loopFrom, getSelfCollisions_eq_loopFrom,
    selfCollisionSphere_removeSphere]
  have hset : ({ H with module := removeSphere H.module k } :
      SphereCollisionHelper K).module.active_spheres
      ++ ({ H with module := removeSphere H.module k } :
        SphereCollisionHelper K).module.inactive_spheres
      = (H.module.active_spheres ++ H.module.inactive_spheres).eraseIdx k :=
    removeSphere_spheres H.module k
  rw [hset]
  obtain ⟨hlt, hget⟩ := List.getElem?_eq_some.mp hk
  have h := loopFrom_eraseIdx (selfCollisionSphere sqrt H current_sphere position)
    body_index (H.module.active_spheres ++ H.module.inactive_spheres) k 0
    { cost := 0, gradient := vec3.zero, otherJacobian := otherJacobian } hlt
    (by simpa using hne)
    (by
      intro b
      have : (H.module.active_spheres ++ H.module.inactive_spheres).get ⟨k, hlt⟩ = other := hget
      rw [this]
      simp [selfCollisionSphere, hlink])
  simpa using h

/-- Witness for C10: a third sphere on link 0, overlapping the evaluated
sphere, is taken out of the set without changing the result. -/
theorem getSelfCollisions_same_link_removed_witness :
    getSelfCollisions sqrtQ
        { demoHelper ℚ false 4 [⟨0, 0, 0, ⟨0, 0, 1⟩, 1⟩] with
          module := removeSphere (demoHelper ℚ false 4 [⟨0, 0, 0, ⟨0, 0, 1⟩, 1⟩]).module 2 }
        0 ⟨0, 0, 0, ⟨0, 0, 0⟩, 1⟩ ⟨0, 0, 0⟩ (List.replicate 6 0)
      = getSelfCollisions sqrtQ (demoHelper ℚ false 4 [⟨0, 0, 0, ⟨0, 0, 1⟩, 1⟩])
          0 ⟨0, 0, 0, ⟨0, 0, 0⟩, 1⟩ ⟨0, 0, 0⟩ (List.replicate 6 0) :=
  getSelfCollisions_same_link_removed sqrtQ (demoHelper ℚ false 4 [⟨0, 0, 0, ⟨0, 0, 1⟩, 1⟩])
    0 2 ⟨0, 0, 0, ⟨0, 0, 0⟩, 1⟩ ⟨0, 0, 0, ⟨0, 0, 1⟩, 1⟩ ⟨0, 0, 0⟩ (List.replicate 6 0)
    rfl (by decide) rfl

/-- C11 (amended): a sphere other than the evaluated one that lies on the same
body as the evaluated sphere and whose link index is registered as adjacent to
that of the evaluated sphere (`areAdjacent` returns true) contributes nothing:
cost, gradient and Jacobian buffer of `getSelfCollisions` are those obtained on
the sphere set without that sphere, whatever the distance. -/
theorem getSelfCollisions_adjacent_removed {K : Type} [LinearOrderedField K]
    (sqrt : K → K) (H : SphereCollisionHelper K) (body_index k : Nat)
    (current_sphere other : Sphere K) (position : vec3 K) (otherJacobian : List K)
    (hk : (H.module.active_spheres ++ H.module.inactive_spheres)[k]? = some other)
    (hne : k ≠ body_index)
    (hbody : current_sphere.body = other.body)
    (hadj : H.module.areAdjacent current_sphere.linkindex other.linkindex = true) :
    getSelfCollisions sqrt { H with module := removeSphere H.module k }
        (if k < body_index then body_index - 1 else body_index)
        current_sphere position otherJacobian
      = getSelfCollisions sqrt H body_index current_sphere position otherJacobian := by
  rw [getSelfCollisions_eq_loopFrom, getSelfCollisions_eq_loopFrom,
    selfCollisionSphere_removeSphere]
  have hset : ({ H with module := removeSphere H.module k } :
      SphereCollisionHelper K).module.active_spheres
      ++ ({ H with module := removeSphere H.module k } :
        SphereCollisionHelper K).module.inactive_spheres
      = (H.module.active_spheres ++ H.module.inactive_spheres).eraseIdx k :=
    removeSphere_spheres H.module k
  rw [hset]
  obtain ⟨hlt, hget⟩ := List.getElem?_eq_some.mp hk
  have h := loopFrom_eraseIdx (selfCollisionSphere sqrt H current_sphere position)
    body_index (H.module.active_spheres ++ H.module.inactive_spheres) k 0
    { cost := 0, gradient := vec3.zero, otherJacobian := otherJacobian } hlt
    (by simpa using hne)
    (by
      intro b
      have : (H.module.active_spheres ++ H.module.inactive_spheres).get ⟨k, hlt⟩ = other := hget
      rw [this]
      simp [selfCollisionSphere, hbody, hadj])
  simpa using h

/-- Witness for C11 (amended): two spheres of body 0 on the adjacent links 1
and 2; the second one is taken out without changing the result for the first. -/
theorem getSelfCollisions_adjacent_removed_witness :
    getSelfCollisions sqrtQ
        { sphereSetHelper [⟨0, 1, 1, ⟨0, 0, 0⟩, 1⟩, ⟨0, 2, 2, ⟨0, 0, 1⟩, 1⟩] [] with
          module := removeSphere
            (sphereSetHelper [⟨0, 1, 1, ⟨0, 0, 0⟩, 1⟩, ⟨0, 2, 2, ⟨0, 0, 1⟩, 1⟩] []).module 1 }
        0 ⟨0, 1, 1, ⟨0, 0, 0⟩, 1⟩ ⟨0, 0, 0⟩ (List.replicate 6 0)
      = getSelfCollisions sqrtQ
          (sphereSetHelper [⟨0, 1, 1, ⟨0, 0, 0⟩, 1⟩, ⟨0, 2, 2, ⟨0, 0, 1⟩, 1⟩] [])
          0 ⟨0, 1, 1, ⟨0, 0, 0⟩, 1⟩ ⟨0, 0, 0⟩ (List.replicate 6 0) :=
  getSelfCollisions_adjacent_removed sqrtQ
    (sphereSetHelper [⟨0, 1, 1, ⟨0, 0, 0⟩, 1⟩, ⟨0, 2, 2, ⟨0, 0, 1⟩, 1⟩] [])
    0 1 ⟨0, 1, 1, ⟨0, 0, 0⟩, 1⟩ ⟨0, 2, 2, ⟨0, 0, 1⟩, 1⟩ ⟨0, 0, 0⟩ (List.replicate 6 0)
    rfl (by decide) rfl (by decide)

/-- C11, counterexample: link indices 1 and 2 are registered as adjacent, but
the two spheres lie on different bodies, so the pair is not skipped: the
evaluated sphere gets cost `1/2` from it, and cost `0` once it is removed. -/
theorem getSelfCollisions_adjacent_other_body_counts :
    twoBodyHelper.module.areAdjacent 1 2 = true ∧
    (getSelfCollisions sqrtQ twoBodyHelper 0 ⟨0, 1, 1, ⟨0, 0, 0⟩, 1⟩ ⟨0, 0, 0⟩
        (List.replicate 6 0)).cost = 1 / 2 ∧
    (getSelfCollisions sqrtQ { twoBodyHelper with module := removeSphere twoBodyHelper.module 1 }
        0 ⟨0, 1, 1, ⟨0, 0, 0⟩, 1⟩ ⟨0, 0, 0⟩ (List.replicate 6 0)).cost = 0 := by
  refine ⟨by decide, ?_, ?_⟩
  · simp [getSelfCollisions, twoBodyHelper, sphereSetHelper, demoHelper, demoModule, demoRobot, List.range_succ,
      selfCollisionStep, selfCollisionSphere, selfCollisionPair, spherePos,
      distBetweenCenters, vec3.sub, vec3.zero, vec3.add, vec3.scale]
    norm_num [sqrtQ_25, computeCostFromDist, accumulateJacobian, vec3.scale, List.range_succ]
  · simp [getSelfCollisions, twoBodyHelper, sphereSetHelper, demoHelper, demoModule, removeSphere,
      List.range_succ, selfCollisionStep]


theorem loopFrom_eq_foldl_filter {K : Type} [LinearOrderedField K] (sqrt : K → K)
    (H : SphereCollisionHelper K) (body_index : Nat) (current_sphere : Sphere K)
    (position : vec3 K) (l : List (Sphere K)) :
    ∀ (i : Nat) (acc : SelfAcc K),
      loopFrom (selfCollisionSphere sqrt H current_sphere position) body_index i l acc
        = (((l.enumFrom i).filter (notExcluded H body_index current_sphere)).map
            Prod.snd).foldl (selfCollisionPair sqrt H current_sphere position) acc := by
  induction l with
  | nil => intro i acc; rfl
  | cons a rest ih =>
    intro i acc
    rw [loopFrom, ih, List.enumFrom_cons, List.filter_cons]
    by_cases hi : i = body_index
    · simp [notExcluded, hi]
    · by_cases hl : current_sphere.linkindex = a.linkindex
      · simp [notExcluded, hi, hl, selfCollisionSphere]
      · by_cases hb : current_sphere.body = a.body ∧
            H.module.areAdjacent current_sphere.linkindex a.linkindex = true
        · simp [notExcluded, hi, hl, hb, selfCollisionSphere]
        · have hk : notExcluded H body_index current_sphere (i, a) = true := by
            simp only [notExcluded, ne_eq, hi, not_false_eq_true, decide_True, hl,
              Bool.and_self, Bool.true_and, Bool.not_eq_true', Bool.and_eq_false_imp,
              decide_eq_true_eq]
            intro h1
            by_contra h2
            exact hb ⟨h1, by simpa using h2⟩
          simp [hk, hi, selfCollisionSphere, hl, hb]

theorem foldl_selfCollisionPair {K : Type} [LinearOrderedField K] (sqrt : K → K)
    (H : SphereCollisionHelper K) (current_sphere : Sphere K) (position : vec3 K)
    (l : List (Sphere K)) :
    ∀ acc : SelfAcc K,
      (l.foldl (selfCollisionPair sqrt H current_sphere position) acc).cost
        = acc.cost + (l.map (fun s => (pairResult sqrt H current_sphere position s).1)).sum ∧
      (l.foldl (selfCollisionPair sqrt H current_sphere position) acc).gradient.x
        = acc.gradient.x + (l.map (fun s =>
            (pairResult sqrt H current_sphere position s).2.x
              * (pairResult sqrt H current_sphere position s).1)).sum ∧
      (l.foldl (selfCollisionPair sqrt H current_sphere position) acc).gradient.y
        = acc.gradient.y + (l.map (fun s =>
            (pairResult sqrt H current_sphere position s).2.y
              * (pairResult sqrt H current_sphere position s).1)).sum ∧
      (l.foldl (selfCollisionPair sqrt H current_sphere position) acc).gradient.z
        = acc.gradient.z + (l.map (fun s =>
            (pairResult sqrt H current_sphere position s).2.z
              * (pairResult sqrt H current_sphere position s).1)).sum := by
  induction l with
  | nil => intro acc; simp
  | cons a rest ih =>
    intro acc
    obtain ⟨h1, h2, h3, h4⟩ := ih (selfCollisionPair sqrt H current_sphere position acc a)
    simp only [List.foldl_cons, List.map_cons, List.sum_cons, h1, h2, h3, h4]
    refine ⟨?_, ?_, ?_, ?_⟩ <;>
      simp only [selfCollisionPair, pairResult, unitDirection, vec3.add, vec3.scale] <;> ring

/-- C12 (amended): `getSelfCollisions` returns the sum, over the non-excluded
other spheres, of the pair cost `computeCostFromDist(center distance - r_other
- r_current, epsilon_self, unit direction)`, and every component of its output
gradient is the sum over the same pairs of the component of the pair's scaled
direction multiplied by the pair's cost. -/
theorem getSelfCollisions_sums {K : Type} [LinearOrderedField K] (sqrt : K → K)
    (H : SphereCollisionHelper K) (body_index : Nat) (current_sphere : Sphere K)
    (position : vec3 K) (otherJacobian : List K) :
    (getSelfCollisions sqrt H body_index current_sphere position otherJacobian).cost
      = ((nonExcluded H body_index current_sphere).map
          (fun s => (pairResult sqrt H current_sphere position s).1)).sum ∧
    (getSelfCollisions sqrt H body_index current_sphere position otherJacobian).gradient
      = ⟨((nonExcluded H body_index current_sphere).map (fun s =>
            (pairResult sqrt H current_sphere position s).2.x
              * (pairResult sqrt H current_sphere position s).1)).sum,
         ((nonExcluded H body_index current_sphere).map (fun s =>
            (pairResult sqrt H current_sphere position s).2.y
              * (pairResult sqrt H current_sphere position s).1)).sum,
         ((nonExcluded H body_index current_sphere).map (fun s =>
            (pairResult sqrt H current_sphere position s).2.z
              * (pairResult sqrt H current_sphere position s).1)).sum⟩ := by
  rw [getSelfCollisions_eq_loopFrom, loopFrom_eq_foldl_filter]
  obtain ⟨h1, h2, h3, h4⟩ := foldl_selfCollisionPair sqrt H current_sphere position
    (nonExcluded H body_index current_sphere)
    { cost := 0, gradient := vec3.zero, otherJacobian := otherJacobian }
  have e : ((((H.module.active_spheres ++ H.module.inactive_spheres).enumFrom 0).filter
      (notExcluded H body_index current_sphere)).map Prod.snd)
      = nonExcluded H body_index current_sphere := rfl
  rw [e]
  refine ⟨by simpa using h1, ?_⟩
  ext
  · simpa [vec3.zero] using h2
  · simpa [vec3.zero] using h3
  · simpa [vec3.zero] using h4

/-- C12, counterexample: in the example set the only non-excluded pair has the
scaled direction `(3/20, 1/5, 0)` and cost `1/2`; the output gradient is
`(3/40, 1/10, 0)`, the scaled direction times the cost, not the scaled
direction itself. -/
theorem getSelfCollisions_gradient_is_cost_weighted :
    nonExcluded (demoHelper ℚ false 4 []) 0 ⟨0, 0, 0, ⟨0, 0, 0⟩, 1⟩
      = [⟨0, 3, 3, ⟨3, 4, 0⟩, 2⟩] ∧
    pairResult sqrtQ (demoHelper ℚ false 4 []) ⟨0, 0, 0, ⟨0, 0, 0⟩, 1⟩ ⟨0, 0, 0⟩
      ⟨0, 3, 3, ⟨3, 4, 0⟩, 2⟩ = (1 / 2, ⟨3 / 20, 1 / 5, 0⟩) ∧
    (getSelfCollisions sqrtQ (demoHelper ℚ false 4 []) 0 ⟨0, 0, 0, ⟨0, 0, 0⟩, 1⟩ ⟨0, 0, 0⟩
      (List.replicate 6 0)).gradient = ⟨3 / 40, 1 / 10, 0⟩ ∧
    (getSelfCollisions sqrtQ (demoHelper ℚ false 4 []) 0 ⟨0, 0, 0, ⟨0, 0, 0⟩, 1⟩ ⟨0, 0, 0⟩
      (List.replicate 6 0)).gradient.x
      ≠ ((nonExcluded (demoHelper ℚ false 4 []) 0 ⟨0, 0, 0, ⟨0, 0, 0⟩, 1⟩).map
          (fun s => (pairResult sqrtQ (demoHelper ℚ false 4 []) ⟨0, 0, 0, ⟨0, 0, 0⟩, 1⟩
            ⟨0, 0, 0⟩ s).2.x)).sum := by
  have hadj : ¬ Int.lor ((3 : Int) <<< (16 : Int)) (Int.land 0 65535) = 131073 := by decide
  have hne : nonExcluded (demoHelper ℚ false 4 []) 0 ⟨0, 0, 0, ⟨0, 0, 0⟩, 1⟩
      = [⟨0, 3, 3, ⟨3, 4, 0⟩, 2⟩] := by
    simp [nonExcluded, notExcluded, demoHelper, demoModule, demoRobot, List.enum,
      List.enumFrom, List.filter, mod.areAdjacent, hadj]
  have hpair : pairResult sqrtQ (demoHelper ℚ false 4 []) ⟨0, 0, 0, ⟨0, 0, 0⟩, 1⟩ ⟨0, 0, 0⟩
      ⟨0, 3, 3, ⟨3, 4, 0⟩, 2⟩ = (1 / 2, ⟨3 / 20, 1 / 5, 0⟩) := by
    simp [pairResult, unitDirection, distBetweenCenters, spherePos, demoHelper, demoModule,
      demoRobot, vec3.sub]
    norm_num [sqrtQ_25, computeCostFromDist, vec3.scale]
  refine ⟨hne, hpair, by rw [demo_getSelfCollisions], ?_⟩
  rw [demo_getSelfCollisions, hne]
  simp only [List.map_cons, List.map_nil, List.sum_cons, List.sum_nil, hpair]
  norm_num

theorem sqrtQ_zero : sqrtQ 0 = 0 := by
  simp [sqrtQ]

/-- C13: evaluation at the failing input.  Two unit spheres on the non-adjacent
links 0 and 3 have the same center: the pair passes the exclusion tests, so the
pair computation of lines 317-366 runs, and the distance between the centers,
by which lines 339-341 divide the three components of `diff`, is `0`. -/
theorem getSelfCollisions_coincident_divides_by_zero :
    (∀ acc, selfCollisionSphere sqrtQ coincidentHelper ⟨0, 0, 0, ⟨0, 0, 0⟩, 1⟩ ⟨0, 0, 0⟩ acc
        ⟨0, 3, 3, ⟨0, 0, 0⟩, 1⟩
      = selfCollisionPair sqrtQ coincidentHelper ⟨0, 0, 0, ⟨0, 0, 0⟩, 1⟩ ⟨0, 0, 0⟩ acc
        ⟨0, 3, 3, ⟨0, 0, 0⟩, 1⟩) ∧
    distBetweenCenters sqrtQ ⟨0, 0, 0⟩ (spherePos coincidentHelper ⟨0, 3, 3, ⟨0, 0, 0⟩, 1⟩) = 0 ∧
    (getSelfCollisions sqrtQ coincidentHelper 0 ⟨0, 0, 0, ⟨0, 0, 0⟩, 1⟩ ⟨0, 0, 0⟩
      (List.replicate 6 0)).cost = 4 := by
  have hadj : ¬ Int.lor ((3 : Int) <<< (16 : Int)) (Int.land 0 65535) = 131073 := by decide
  refine ⟨?_, ?_, ?_⟩
  · intro acc
    simp [selfCollisionSphere, coincidentHelper, sphereSetHelper, demoHelper, demoModule,
      demoRobot, mod.areAdjacent, hadj]
  · simp [distBetweenCenters, spherePos, coincidentHelper, sphereSetHelper, demoHelper,
      demoModule, demoRobot, vec3.sub, sqrtQ_zero]
  · simp [getSelfCollisions, hadj, coincidentHelper, sphereSetHelper, demoHelper, demoModule,
      demoRobot, List.range_succ, selfCollisionStep, selfCollisionSphere, selfCollisionPair,
      mod.areAdjacent, spherePos, distBetweenCenters, vec3.sub, vec3.zero, vec3.add,
      vec3.scale, sqrtQ_zero]
    norm_num [computeCostFromDist]

theorem foldl_sdfStep_firstMin {K : Type} [LinearOrderedField K] (position : vec3 K)
    (fs : List (vec3 K → K × vec3 K)) :
    ∀ (pre post : List (K × vec3 K)) (m : K) (g : vec3 K),
      (∀ q ∈ pre, m < q.1) → (∀ q ∈ post, m ≤ q.1) →
      ∃ (pre' post' : List (K × vec3 K)) (m' : K) (g' : vec3 K),
        pre ++ (m, g) :: post ++ fs.map (fun sdf => sdf position)
          = pre' ++ (m', g') :: post' ∧
        (∀ q ∈ pre', m' < q.1) ∧ (∀ q ∈ post', m' ≤ q.1) ∧
        fs.foldl (sdfStep position) (some m, g) = (some m', g') := by
  induction fs with
  | nil =>
    intro pre post m g hpre hpost
    exact ⟨pre, post, m, g, by simp, hpre, hpost, rfl⟩
  | cons f rest ih =>
    intro pre post m g hpre hpost
    by_cases hlt : (f position).1 < m
    · obtain ⟨pre', post', m', g', he, h1, h2, h3⟩ :=
        ih (pre ++ (m, g) :: post) [] (f position).1 (f position).2
          (by
            intro q hq
            rcases List.mem_append.mp hq with h | h
            · exact lt_trans hlt (hpre q h)
            · rcases List.mem_cons.mp h with h | h
              · rw [h]; exact hlt
              · exact lt_of_lt_of_le hlt (hpost q h))
          (by intro q hq; simp at hq)
      refine ⟨pre', post', m', g', ?_, h1, h2, ?_⟩
      · rw [← he]; simp
      · rw [← h3]; simp [sdfStep, hlt]
    · obtain ⟨pre', post', m', g', he, h1, h2, h3⟩ :=
        ih pre (post ++ [f position]) m g hpre
          (by
            intro q hq
            rcases List.mem_append.mp hq with h | h
            · exact hpost q h
            · rw [List.mem_singleton.mp h]; exact not_lt.mp hlt)
      refine ⟨pre', post', m', g', ?_, h1, h2, ?_⟩
      · rw [← he]; simp
      · rw [← h3]; simp [sdfStep, hlt]

/-- C14: with no distance field `getSDFCollisions` returns cost `0` and the
gradient buffer as passed in; with at least one field it returns
`computeCostFromDist(m - radius, epsilon, g)`, cost and scaled gradient, where
`(m, g)` is the answer of the first field attaining the minimum distance: every
earlier field reports a distance above `m`, every later one at least `m`. -/
theorem getSDFCollisions_reference {K : Type} [LinearOrderedField K]
    (H : SphereCollisionHelper K) (sphere : Sphere K) (position gradient : vec3 K) :
    (H.module.sdfs = [] → getSDFCollisions H sphere position gradient = (0, gradient)) ∧
    (H.module.sdfs ≠ [] →
      ∃ (pre post : List (K × vec3 K)) (m : K) (g : vec3 K),
        H.module.sdfs.map (fun sdf => sdf position) = pre ++ (m, g) :: post ∧
        (∀ q ∈ pre, m < q.1) ∧ (∀ q ∈ post, m ≤ q.1) ∧
        getSDFCollisions H sphere position gradient
          = computeCostFromDist (m - sphere.radius) H.epsilon g) := by
  constructor
  · intro h
    simp [getSDFCollisions, h]
  · intro h
    cases hs : H.module.sdfs with
    | nil => exact absurd hs h
    | cons f rest =>
      obtain ⟨pre, post, m, g, he, h1, h2, h3⟩ :=
        foldl_sdfStep_firstMin position rest [] [] (f position).1 (f position).2
          (by intro q hq; simp at hq) (by intro q hq; simp at hq)
      refine ⟨pre, post, m, g, ?_, h1, h2, ?_⟩
      · rw [← he]; simp
      · have hfold : (f :: rest).foldl (sdfStep position) (none, gradient) = (some m, g) := by
          rw [List.foldl_cons, ← h3]; rfl
        simp only [getSDFCollisions, hs, List.length_cons, Nat.succ_ne_zero, if_false, hfold]

/-- Witness for C14: the example helper has one field, which reports distance
`10` and gradient `(1, 0, 0)`. -/
theorem getSDFCollisions_reference_witness :
    ∃ (pre post : List (ℚ × vec3 ℚ)) (m : ℚ) (g : vec3 ℚ),
      (demoHelper ℚ true 4 []).module.sdfs.map (fun sdf => sdf ⟨0, 0, 0⟩)
        = pre ++ (m, g) :: post ∧
      (∀ q ∈ pre, m < q.1) ∧ (∀ q ∈ post, m ≤ q.1) ∧
      getSDFCollisions (demoHelper ℚ true 4 []) ⟨0, 0, 0, ⟨0, 0, 0⟩, 1⟩ ⟨0, 0, 0⟩ vec3.zero
        = computeCostFromDist (m - 1) 1 g :=
  (getSDFCollisions_reference (demoHelper ℚ true 4 []) ⟨0, 0, 0, ⟨0, 0, 0⟩, 1⟩ ⟨0, 0, 0⟩
    vec3.zero).2 (by simp [demoHelper, demoModule])

theorem padUpper_getD {K : Type} [LinearOrderedField K] (M : Planner K) (i : Nat)
    (hi : i < M.upperJointLimits.length) :
    (padUpper M).getD i 0 = M.upperJointLimits.getD i 0
      - (M.upperJointLimits.getD i 0 - M.lowerJointLimits.getD i 0) * M.jointPadding := by
  simp [padUpper, List.getD_eq_getElem?_getD, List.getElem?_map, List.getElem?_range hi]

theorem padLower_getD {K : Type} [LinearOrderedField K] (M : Planner K) (i : Nat)
    (hi : i < M.upperJointLimits.length) :
    (padLower M).getD i 0 = M.lowerJointLimits.getD i 0
      + (M.upperJointLimits.getD i 0 - M.lowerJointLimits.getD i 0) * M.jointPadding := by
  simp [padLower, List.getD_eq_getElem?_getD, List.getElem?_map, List.getElem?_range hi]

/-- C15: for every dimension `i` the padded limits computed in `create` are
`upper'_i = upper_i - p*(upper_i - lower_i)` and
`lower'_i = lower_i + p*(upper_i - lower_i)`; with `p = 0.1` the limits
`[-1, 1]` become `[-0.8, 0.8]`. -/
theorem create_padded_limits {K : Type} [LinearOrderedField K] :
    (∀ (M : Planner K) (i : Nat), i < M.upperJointLimits.length →
      (padUpper M).getD i 0 = M.upperJointLimits.getD i 0
        - M.jointPadding * (M.upperJointLimits.getD i 0 - M.lowerJointLimits.getD i 0) ∧
      (padLower M).getD i 0 = M.lowerJointLimits.getD i 0
        + M.jointPadding * (M.upperJointLimits.getD i 0 - M.lowerJointLimits.getD i 0)) ∧
    (∀ (M M' : Planner K), create M = some M' →
      M'.paddedUpperJointLimits = padUpper M ∧ M'.paddedLowerJointLimits = padLower M) ∧
    (∀ (q0 q1 : K) (n : Nat),
      padUpper (demoPlanner K (-1) 1 q0 q1 n 0.1) = [0.8] ∧
      padLower (demoPlanner K (-1) 1 q0 q1 n 0.1) = [-0.8]) := by
  refine ⟨?_, ?_, ?_⟩
  · intro M i hi
    rw [padUpper_getD M i hi, padLower_getD M i hi]
    constructor <;> ring
  · intro M M' h
    unfold create at h
    split at h
    · cases h
    · simp only at h
      split at h
      · split at h
        · cases h; exact ⟨rfl, rfl⟩
        · cases h
      · cases h
  · intro q0 q1 n
    constructor
    · simp [padUpper, demoPlanner, List.range_succ]; norm_num
    · simp [padLower, demoPlanner, List.range_succ]; norm_num

/-- Witness for C15 over the rationals. -/
theorem create_padded_limits_witness :
    (padUpper (demoPlanner ℚ (-1) 1 0 0 1 0.1)).getD 0 0 = 1 - 0.1 * (1 - (-1)) :=
  ((create_padded_limits (K := ℚ)).1 (demoPlanner ℚ (-1) 1 0 0 1 0.1) 0 (by decide)).1

theorem clampToLimits_length {K : Type} [LinearOrderedField K] (M : Planner K)
    (state : List K) : (clampToLimits M state).length = state.length := by
  simp [clampToLimits]

theorem clampToLimits_getD {K : Type} [LinearOrderedField K] (M : Planner K)
    (state : List K) (i : Nat) (hi : i < state.length) :
    (clampToLimits M state).getD i 0 =
      if state.getD i 0 > M.paddedUpperJointLimits.getD i 0 then
        M.paddedUpperJointLimits.getD i 0
      else if state.getD i 0 < M.paddedLowerJointLimits.getD i 0 then
        M.paddedLowerJointLimits.getD i 0
      else state.getD i 0 := by
  simp [clampToLimits, List.getD_eq_getElem?_getD, List.getElem?_map, List.getElem?_range hi]

theorem clampToLimits_within {K : Type} [LinearOrderedField K] (M : Planner K)
    (state : List K) (i : Nat) (hi : i < state.length)
    (hlim : M.paddedLowerJointLimits.getD i 0 ≤ M.paddedUpperJointLimits.getD i 0) :
    M.paddedLowerJointLimits.getD i 0 ≤ (clampToLimits M state).getD i 0 ∧
    (clampToLimits M state).getD i 0 ≤ M.paddedUpperJointLimits.getD i 0 := by
  rw [clampToLimits_getD M state i hi]
  split
  · exact ⟨hlim, le_refl _⟩
  · next h1 =>
    split
    · exact ⟨le_refl _, hlim⟩
    · next h2 => exact ⟨not_lt.mp h2, not_lt.mp h1⟩

/-- C16: when `lower'_i ≤ upper'_i` in every dimension of the configuration,
`clampToLimits` keeps the dimension and projects every component onto
`[lower'_i, upper'_i]` (above `upper'_i` it becomes `upper'_i`, below
`lower'_i` it becomes `lower'_i`, inside it is unchanged); the result passes
`isWithinPaddedLimits` (for a configuration and limits of positive dimension,
as its assertions require), and clamping twice is clamping once.  With padded
limits `[-0.8, 0.8]`, `1.5` is clamped to `0.8` and `-1.5` to `-0.8`. -/
theorem clampToLimits_projects {K : Type} [LinearOrderedField K] (M : Planner K)
    (state : List K)
    (hlim : ∀ i, i < state.length →
      M.paddedLowerJointLimits.getD i 0 ≤ M.paddedUpperJointLimits.getD i 0) :
    (clampToLimits M state).length = state.length ∧
    (∀ i, i < state.length →
      (state.getD i 0 > M.paddedUpperJointLimits.getD i 0 →
        (clampToLimits M state).getD i 0 = M.paddedUpperJointLimits.getD i 0) ∧
      (state.getD i 0 < M.paddedLowerJointLimits.getD i 0 →
        (clampToLimits M state).getD i 0 = M.paddedLowerJointLimits.getD i 0) ∧
      (M.paddedLowerJointLimits.getD i 0 ≤ state.getD i 0 →
        state.getD i 0 ≤ M.paddedUpperJointLimits.getD i 0 →
        (clampToLimits M state).getD i 0 = state.getD i 0)) ∧
    (0 < M.upperJointLimits.length → 0 < M.lowerJointLimits.length → 0 < state.length →
      isWithinPaddedLimits M (clampToLimits M state) = some true) ∧
    clampToLimits M (clampToLimits M state) = clampToLimits M state ∧
    (∀ (q0 q1 : K) (n : Nat),
      clampToLimits (withPaddedLimits (demoPlanner K (-1) 1 q0 q1 n 0.1) []) [1.5] = [0.8] ∧
      clampToLimits (withPaddedLimits (demoPlanner K (-1) 1 q0 q1 n 0.1) []) [-1.5]
        = [-0.8]) := by
  refine ⟨clampToLimits_length M state, ?_, ?_, ?_, ?_⟩
  · intro i hi
    rw [clampToLimits_getD M state i hi]
    refine ⟨?_, ?_, ?_⟩
    · intro h; rw [if_pos h]
    · intro h
      have h1 : ¬ state.getD i 0 > M.paddedUpperJointLimits.getD i 0 :=
        not_lt.mpr (le_trans (le_of_lt h) (hlim i hi))
      rw [if_neg h1, if_pos h]
    · intro h1 h2
      rw [if_neg (not_lt.mpr h2), if_neg (not_lt.mpr h1)]
  · intro hu hl hs
    have hcond : 0 < M.upperJointLimits.length ∧ 0 < M.lowerJointLimits.length ∧
        0 < (clampToLimits M state).length := ⟨hu, hl, by rwa [clampToLimits_length]⟩
    unfold isWithinPaddedLimits
    rw [if_pos hcond, clampToLimits_length]
    simp only [Option.some.injEq, List.all_eq_true, List.mem_range]
    intro i hi
    obtain ⟨h1, h2⟩ := clampToLimits_within M state i hi (hlim i hi)
    simp only [gt_iff_lt, Bool.not_eq_true', Bool.or_eq_false_iff, decide_eq_false_iff_not,
      not_lt]
    exact ⟨h2, h1⟩
  · unfold clampToLimits
    rw [List.length_map, List.length_range]
    apply List.map_congr_left
    intro i hi
    have hi' : i < state.length := List.mem_range.mp hi
    have hg := clampToLimits_getD M state i hi'
    unfold clampToLimits at hg
    obtain ⟨h1, h2⟩ := clampToLimits_within M state i hi' (hlim i hi')
    unfold clampToLimits at h1 h2
    rw [if_neg (not_lt.mpr h2), if_neg (not_lt.mpr h1)]
    exact hg
  · intro q0 q1 n
    constructor
    · simp [clampToLimits, withPaddedLimits, padUpper, padLower, demoPlanner, List.range_succ]
      norm_num
    · simp [clampToLimits, withPaddedLimits, padUpper, padLower, demoPlanner, List.range_succ]
      norm_num

/-- Witness for C16 on the padded limits `[-0.8, 0.8]`. -/
theorem clampToLimits_projects_witness :
    isWithinPaddedLimits (withPaddedLimits (demoPlanner ℚ (-1) 1 0 0 1 0.1) [])
      (clampToLimits (withPaddedLimits (demoPlanner ℚ (-1) 1 0 0 1 0.1) []) [1.5])
      = some true :=
  (clampToLimits_projects (withPaddedLimits (demoPlanner ℚ (-1) 1 0 0 1 0.1) []) [1.5]
    (by
      intro i hi
      have h0 : i = 0 := by simpa using hi
      subst h0
      simp [withPaddedLimits, padUpper, padLower, demoPlanner, List.range_succ]
      norm_num)).2.2.1 (by decide) (by decide) (by decide)

theorem isWithinPaddedLimits_ne_of_crossed {K : Type} [LinearOrderedField K]
    (M : Planner K) (mat : List K) (i : Nat) (hi : i < mat.length)
    (hcross : M.paddedUpperJointLimits.getD i 0 < M.paddedLowerJointLimits.getD i 0) :
    isWithinPaddedLimits M mat ≠ some true := by
  unfold isWithinPaddedLimits
  split
  · intro h
    simp only [Option.some.injEq, List.all_eq_true, List.mem_range] at h
    have hi' := h i hi
    simp only [gt_iff_lt, Bool.not_eq_true', Bool.or_eq_false_iff, decide_eq_false_iff_not,
      not_lt] at hi'
    exact absurd (lt_of_le_of_lt (le_trans hi'.2 hi'.1) hcross) (lt_irrefl _)
  · intro h; cases h

/-- C17 (amended): for `p > 0.5` and raw limits with `lower_i < upper_i` in some
dimension `i` of the configuration, `create` fails before the optimizer is
constructed; for every `0 ≤ p < 0.5` and `lower_i ≤ upper_i` the padded limits
satisfy `lower'_i ≤ upper'_i`. -/
theorem create_padding_fraction {K : Type} [LinearOrderedField K] (M : Planner K) :
    (1 / 2 < M.jointPadding →
      (∃ i, i < M.q0.length ∧ i < M.upperJointLimits.length ∧
        M.lowerJointLimits.getD i 0 < M.upperJointLimits.getD i 0) →
      create M = none) ∧
    (0 ≤ M.jointPadding → M.jointPadding < 1 / 2 →
      ∀ i, i < M.upperJointLimits.length →
        M.lowerJointLimits.getD i 0 ≤ M.upperJointLimits.getD i 0 →
        (padLower M).getD i 0 ≤ (padUpper M).getD i 0) := by
  constructor
  · rintro hp ⟨i, hiq, hiu, hlt⟩
    unfold create
    cases createInitialTrajectory M with
    | none => rfl
    | some trajectory =>
      have hcross : (padUpper M).getD i 0 < (padLower M).getD i 0 := by
        rw [padUpper_getD M i hiu, padLower_getD M i hiu]
        nlinarith
      have hlen : i < (clampToLimits (withPaddedLimits M trajectory) M.q0).length := by
        rw [clampToLimits_length]; exact hiq
      have hne := isWithinPaddedLimits_ne_of_crossed
        { withPaddedLimits M trajectory with
          q0 := clampToLimits (withPaddedLimits M trajectory) M.q0,
          q1 := clampToLimits
            { withPaddedLimits M trajectory with
              q0 := clampToLimits (withPaddedLimits M trajectory) M.q0 } M.q1 }
        (clampToLimits (withPaddedLimits M trajectory) M.q0) i hlen hcross
      simp only [withPaddedLimits] at hne ⊢
      simp only [hne, if_false]
  · intro h0 h1 i hi hle
    rw [padUpper_getD M i hi, padLower_getD M i hi]
    nlinarith

/-- Witness for C17 (amended): padding fraction `0.75` on the limits `[-1, 1]`. -/
theorem create_padding_fraction_witness :
    create (demoPlanner ℚ (-1) 1 0 0 1 (3 / 4)) = none :=
  (create_padding_fraction (demoPlanner ℚ (-1) 1 0 0 1 (3 / 4))).1
    (by simp only [demoPlanner]; norm_num)
    ⟨0, by decide, by decide, by simp only [demoPlanner, List.getD_cons_zero]; norm_num⟩

/-- C17, counterexample: with `p = 0.5` exactly on the limits `[-1, 1]`, and with
`p = 2` on the degenerate limits `[0, 0]`, `create` does not fail: the padded
limits coincide at `0` and the endpoints are clamped to them. -/
theorem create_accepts_half_padding :
    (create (demoPlanner ℚ (-1) 1 0 0 1 0.5)).map
        (fun M => (M.paddedLowerJointLimits, M.paddedUpperJointLimits, M.q0, M.q1,
          M.trajectory))
      = some ([0], [0], [0], [0], [[0]]) ∧
    (create (demoPlanner ℚ 0 0 0 0 1 2)).map
        (fun M => (M.paddedLowerJointLimits, M.paddedUpperJointLimits, M.q0, M.q1,
          M.trajectory))
      = some ([0], [0], [0], [0], [[0]]) := by
  have h : (0.5 : ℚ) = 1 / 2 := by norm_num
  have h2 : ((1 : ℚ) + 1) * 2⁻¹ = 1 := by norm_num
  constructor <;>
    simp [create, createInitialTrajectory, isWithinLimits, isWithinPaddedLimits, seedRow,
      withPaddedLimits, padUpper, padLower, clampToLimits, demoPlanner, List.range_succ, h, h2]

theorem seedRow_getD {K : Type} [LinearOrderedField K] (M : Planner K) (i j : Nat)
    (hj : j < M.q0.length) :
    (seedRow M i).getD j 0
      = ((i : K) + 1) * (M.q1.getD j 0 - M.q0.getD j 0) / ((M.n : K) + 1) + M.q0.getD j 0 := by
  simp [seedRow, List.getD_eq_getElem?_getD, List.getElem?_map, List.getElem?_range hj]

/-- C18 (amended): for `q0`, `q1` of equal dimension and `n ≥ 1` such that every
interpolated row passes the raw-limit assertion, `createInitialTrajectory`
produces exactly `n` waypoints of the dimension of `q0`, and the `i`-th one
(1-indexed) is `q0 + i*(q1 - q0)/(n+1)` componentwise; for `q0 = [0]`,
`q1 = [10]`, `n = 4` within the limits `[0, 10]` the waypoints are
`[2, 4, 6, 8]`. -/
theorem createInitialTrajectory_rows {K : Type} [LinearOrderedField K] (M : Planner K)
    (hn : 1 ≤ M.n) (hdim : M.q0.length = M.q1.length)
    (hlim : ∀ i, i < M.n → isWithinLimits M (seedRow M i) = some true) :
    (∃ trajectory, createInitialTrajectory M = some trajectory ∧
      trajectory.length = M.n ∧
      ∀ i, 1 ≤ i → i ≤ M.n →
        (trajectory.getD (i - 1) []).length = M.q0.length ∧
        ∀ j, j < M.q0.length →
          (trajectory.getD (i - 1) []).getD j 0
            = M.q0.getD j 0 + (i : K) * (M.q1.getD j 0 - M.q0.getD j 0) / ((M.n : K) + 1)) ∧
    (∀ p : K, createInitialTrajectory (demoPlanner K 0 10 0 10 4 p)
        = some [[2], [4], [6], [8]]) := by
  constructor
  · refine ⟨(List.range M.n).map (seedRow M), ?_, by simp, ?_⟩
    · have h1 : M.n ≠ 0 ∧ M.q0.length = M.q1.length := ⟨by omega, hdim⟩
      have h2 : (List.range M.n).all (fun i => isWithinLimits M (seedRow M i) == some true)
          = true := by
        rw [List.all_eq_true]
        intro i hi
        rw [hlim i (List.mem_range.mp hi)]
        rfl
      rw [createInitialTrajectory, if_pos h1, if_pos h2]
    · intro i h1 h2
      have hi : i - 1 < M.n := by omega
      have hrow : ((List.range M.n).map (seedRow M)).getD (i - 1) [] = seedRow M (i - 1) := by
        simp [List.getD_eq_getElem?_getD, List.getElem?_map, List.getElem?_range hi]
      rw [hrow]
      refine ⟨by simp [seedRow], ?_⟩
      intro j hj
      rw [seedRow_getD M (i - 1) j hj]
      have hc : ((i - 1 : Nat) : K) + 1 = (i : K) := by
        have : i - 1 + 1 = i := by omega
        exact_mod_cast this
      rw [hc]
      ring
  · intro p
    simp [createInitialTrajectory, isWithinLimits, seedRow, demoPlanner, List.range_succ]
    norm_num

/-- Witness for C18 (amended): start `0`, goal `10`, four waypoints, limits
`[0, 10]`. -/
theorem createInitialTrajectory_rows_witness :
    ∃ trajectory, createInitialTrajectory (demoPlanner ℚ 0 10 0 10 4 0) = some trajectory ∧
      trajectory.length = 4 := by
  obtain ⟨trajectory, h1, h2, _⟩ :=
    (createInitialTrajectory_rows (demoPlanner ℚ 0 10 0 10 4 0) (by decide) rfl
      (by
        intro i hi
        have hi' : i < 4 := hi
        interval_cases i <;>
          simp [isWithinLimits, seedRow, demoPlanner, List.range_succ] <;> norm_num)).1
  exact ⟨trajectory, h1, h2⟩

/-- C18, counterexample: start `0`, goal `10`, four waypoints, raw limits
`[-1, 1]`: the first row is `2`, the limit assertion fails and no trajectory is
produced. -/
theorem createInitialTrajectory_asserts_limits :
    seedRow (demoPlanner ℚ (-1) 1 0 10 4 0) 0 = [2] ∧
    isWithinLimits (demoPlanner ℚ (-1) 1 0 10 4 0) [2] = some false ∧
    createInitialTrajectory (demoPlanner ℚ (-1) 1 0 10 4 0) = none := by
  refine ⟨?_, ?_, ?_⟩
  · simp [seedRow, demoPlanner, List.range_succ]
    norm_num
  · simp [isWithinLimits, demoPlanner, List.range_succ]
  · simp [createInitialTrajectory, isWithinLimits, seedRow, demoPlanner, List.range_succ]
    norm_num

/-- C19: evaluation at the failing input.  Raw limits `[-1, 1]`, start and goal
both `1` (within the raw limits), one waypoint, padding fraction `0.1`: `create`
succeeds, the endpoints are clamped to `0.8`, but the seed trajectory handed to
the optimizer still holds the row `1`, which is outside the padded limits
`[-0.8, 0.8]`. -/
theorem create_seed_row_outside_padded_limits :
    isWithinLimits (demoPlanner ℚ (-1) 1 1 1 1 0.1) [1] = some true ∧
    ∃ M, create (demoPlanner ℚ (-1) 1 1 1 1 0.1) = some M ∧
      M.paddedLowerJointLimits = [-0.8] ∧ M.paddedUpperJointLimits = [0.8] ∧
      M.q0 = [0.8] ∧ M.q1 = [0.8] ∧ M.trajectory = [[1]] ∧
      M.trajectory.map (isWithinPaddedLimits M) = [some false] := by
  have h : (0.1 : ℚ) = 1 / 10 := by norm_num
  have h8 : (0.8 : ℚ) = 4 / 5 := by norm_num
  constructor
  · simp [isWithinLimits, demoPlanner, List.range_succ]
  · simp [create, createInitialTrajectory, isWithinLimits, isWithinPaddedLimits, seedRow,
      withPaddedLimits, padUpper, padLower, clampToLimits, demoPlanner, List.range_succ, h, h8]
    norm_num
    simp [isWithinPaddedLimits, List.range_succ]
    norm_num

theorem cost_nonneg {K : Type} [LinearOrderedField K] (epsilon d : K) (hε : 0 < epsilon)
    (g : vec3 K) : 0 ≤ (computeCostFromDist d epsilon g).1 := by
  unfold computeCostFromDist
  split
  · next h =>
    have : 0 < 0.5 * epsilon := by norm_num; exact hε
    simp only; linarith
  · split
    · simp only
      apply div_nonneg _ hε.le
      have := mul_self_nonneg (d - epsilon)
      have h5 : (0 : K) ≤ 0.5 := by norm_num
      exact mul_nonneg this h5
    · simp

theorem cost_pos_iff {K : Type} [LinearOrderedField K] (epsilon d : K) (hε : 0 < epsilon)
    (g : vec3 K) : 0 < (computeCostFromDist d epsilon g).1 ↔ d < epsilon := by
  unfold computeCostFromDist
  split
  · next h =>
    have h5 : 0 < 0.5 * epsilon := by norm_num; exact hε
    simp only
    constructor
    · intro _; exact lt_trans h hε
    · intro _; linarith
  · split
    · next h1 h2 =>
      simp only
      constructor
      · intro hpos
        rcases eq_or_lt_of_le h2 with h | h
        · rw [h] at hpos; simp at hpos
        · exact h
      · intro hlt
        apply div_pos _ hε
        have hne : d - epsilon ≠ 0 := by intro h; linarith
        have := mul_self_pos.mpr hne
        have h5 : (0 : K) < 0.5 := by norm_num
        exact mul_pos this h5
    · next h1 h2 =>
      simp only [lt_irrefl, false_iff, not_lt]
      exact le_of_lt (not_le.mp h2)

theorem cost_antitone {K : Type} [LinearOrderedField K] (epsilon : K) (hε : 0 < epsilon)
    (g : vec3 K) (d1 d2 : K) (h : d1 ≤ d2) :
    (computeCostFromDist d2 epsilon g).1 ≤ (computeCostFromDist d1 epsilon g).1 := by
  have h5 : (0.5 : K) = 1 / 2 := by norm_num
  by_cases h2n : d2 < 0
  · have h1n : d1 < 0 := lt_of_le_of_lt h h2n
    simp only [computeCostFromDist, h1n, h2n, if_true]
    linarith
  · by_cases h2e : d2 ≤ epsilon
    · by_cases h1n : d1 < 0
      · simp only [computeCostFromDist, h1n, h2n, h2e, if_true, if_false, h5]
        rw [div_le_iff₀ hε]
        nlinarith [not_lt.mp h2n]
      · have h1e : d1 ≤ epsilon := le_trans h h2e
        simp only [computeCostFromDist, h1n, h2n, h1e, h2e, if_true, if_false, h5]
        apply div_le_div_of_nonneg_right _ hε.le
        nlinarith [not_lt.mp h1n]
    · have hz : (computeCostFromDist d2 epsilon g).1 = 0 := by
        simp [computeCostFromDist, h2n, h2e]
      rw [hz]
      exact cost_nonneg epsilon d1 hε g

theorem cost_continuous (epsilon : ℝ) (hε : 0 < epsilon) (g : vec3 ℝ) :
    Continuous (fun d => (computeCostFromDist d epsilon g).1) := by
  have hfun : (fun d => (computeCostFromDist d epsilon g).1)
      = fun d : ℝ => if (0 : ℝ) ≤ d then
          (if d ≤ epsilon then (d - epsilon) * (d - epsilon) * 0.5 / epsilon else 0)
        else -d + 0.5 * epsilon := by
    funext d
    unfold computeCostFromDist
    by_cases h : d < 0
    · simp [h, not_le.mpr h]
    · simp only [h, if_false, not_lt.mp h, if_true]
      split <;> rfl
  rw [hfun]
  apply Continuous.if_le
  · apply Continuous.if_le
    · fun_prop
    · exact continuous_const
    · exact continuous_id
    · exact continuous_const
    · intro x hx
      rw [hx]; simp
  · fun_prop
  · exact continuous_const
  · exact continuous_id
  · intro x hx
    rw [← hx]
    simp only [hε.le, if_true, zero_sub, neg_zero, zero_add]
    field_simp
    ring

theorem accumulateJacobian_nil {K : Type} [LinearOrderedField K] (otherJacobian : List K)
    (current_cost : K) : accumulateJacobian otherJacobian [] current_cost = otherJacobian := by
  simp [accumulateJacobian]

/-- C20: for `epsilon > 0` the cost of `computeCostFromDist` is non-negative,
non-increasing in `d` on the whole real line, continuous (in particular at
`d = 0`, where both branches give `0.5*epsilon`), and strictly positive exactly
when `d < epsilon`; hence in the pair computation of `getSelfCollisions` the
Jacobian of the other sphere is computed and accumulated exactly when the
surface-to-surface distance is below `epsilon_self`. -/
theorem computeCostFromDist_shape (epsilon : ℝ) (hε : 0 < epsilon) (g : vec3 ℝ) :
    (∀ d, 0 ≤ (computeCostFromDist d epsilon g).1) ∧
    (∀ d1 d2, d1 ≤ d2 →
      (computeCostFromDist d2 epsilon g).1 ≤ (computeCostFromDist d1 epsilon g).1) ∧
    Continuous (fun d => (computeCostFromDist d epsilon g).1) ∧
    (computeCostFromDist 0 epsilon g).1 = 0.5 * epsilon ∧
    Filter.Tendsto (fun d => -d + 0.5 * epsilon) (nhdsWithin 0 (Set.Iio 0))
      (nhds (0.5 * epsilon)) ∧
    (∀ d, 0 < (computeCostFromDist d epsilon g).1 ↔ d < epsilon) ∧
    (∀ (sqrt : ℝ → ℝ) (H : SphereCollisionHelper ℝ) (current_sphere other : Sphere ℝ)
        (position : vec3 ℝ) (acc : SelfAcc ℝ), H.epsilon_self = epsilon →
      (selfCollisionPair sqrt H current_sphere position acc other).otherJacobian
        = if distBetweenCenters sqrt position (spherePos H other) - other.radius
              - current_sphere.radius < H.epsilon_self
          then accumulateJacobian acc.otherJacobian
            (H.module.robot.CalculateActiveJacobian H.module.activeDOFValues
              other.linkindex (spherePos H other))
            (pairResult sqrt H current_sphere position other).1
          else acc.otherJacobian) := by
  refine ⟨fun d => cost_nonneg epsilon d hε g, cost_antitone epsilon hε g,
    cost_continuous epsilon hε g, ?_, ?_, fun d => cost_pos_iff epsilon d hε g, ?_⟩
  · simp only [computeCostFromDist, lt_irrefl, if_false, hε.le, if_true, zero_sub]
    field_simp
    ring
  · have hc : ContinuousAt (fun d : ℝ => -d + 0.5 * epsilon) 0 := by fun_prop
    have h := hc.tendsto
    simp only [neg_zero, zero_add] at h
    exact h.mono_left nhdsWithin_le_nhds
  · intro sqrt H current_sphere other position acc hH
    have hpos := cost_pos_iff H.epsilon_self
      (distBetweenCenters sqrt position (spherePos H other) - other.radius
        - current_sphere.radius) (by rw [hH]; exact hε)
      (unitDirection sqrt position (spherePos H other))
    by_cases hlt : distBetweenCenters sqrt position (spherePos H other) - other.radius
        - current_sphere.radius < H.epsilon_self
    · rw [if_pos hlt]
      have hp := hpos.mpr hlt
      simp only [selfCollisionPair, pairResult, unitDirection] at hp ⊢
      rw [if_pos hp]
    · rw [if_neg hlt]
      have hp := fun h => hlt (hpos.mp h)
      simp only [selfCollisionPair, pairResult, unitDirection] at hp ⊢
      rw [if_neg hp, accumulateJacobian_nil]

/-- Witness for C20 at `epsilon = 2`. -/
theorem computeCostFromDist_shape_witness :
    (0 < (computeCostFromDist (1 : ℝ) 2 ⟨1, 2, 3⟩).1 ↔ (1 : ℝ) < 2) :=
  (computeCostFromDist_shape 2 (by norm_num) ⟨1, 2, 3⟩).2.2.2.2.2.1 1

theorem isWithinLimits_eq_some_true_iff {K : Type} [LinearOrderedField K] (M : Planner K)
    (mat : List K) :
    isWithinLimits M mat = some true ↔
      (0 < M.upperJointLimits.length ∧ 0 < M.lowerJointLimits.length ∧ 0 < mat.length) ∧
      ∀ i, i < mat.length →
        mat.getD i 0 ≤ M.upperJointLimits.getD i 0 ∧
        M.lowerJointLimits.getD i 0 ≤ mat.getD i 0 := by
  unfold isWithinLimits
  split
  · next hc =>
    simp only [Option.some.injEq, List.all_eq_true, List.mem_range, gt_iff_lt,
      Bool.not_eq_true', Bool.or_eq_false_iff, decide_eq_false_iff_not, not_lt, hc, true_and]
  · next hc =>
    constructor
    · intro h; cases h
    · intro h; exact absurd h.1 hc

theorem seedRow_length {K : Type} [LinearOrderedField K] (M : Planner K) (i : Nat) :
    (seedRow M i).length = M.q0.length := by
  simp [seedRow]

theorem interpolation_between {K : Type} [LinearOrderedField K] (a b lo hi : K) (i n : Nat)
    (hin : i < n) (ha : lo ≤ a ∧ a ≤ hi) (hb : lo ≤ b ∧ b ≤ hi) :
    lo ≤ ((i : K) + 1) * (b - a) / ((n : K) + 1) + a ∧
    ((i : K) + 1) * (b - a) / ((n : K) + 1) + a ≤ hi := by
  have hN : (0 : K) < (n : K) + 1 := by positivity
  have hk0 : (0 : K) ≤ (i : K) + 1 := by positivity
  have hkN : (i : K) + 1 ≤ (n : K) + 1 := by
    have : (i : K) ≤ (n : K) := by exact_mod_cast hin.le
    linarith
  have e : ((i : K) + 1) * (b - a) / ((n : K) + 1) + a
      = (((i : K) + 1) * (b - a) + a * ((n : K) + 1)) / ((n : K) + 1) := by
    field_simp
  rw [e, le_div_iff₀ hN, div_le_iff₀ hN]
  constructor
  · nlinarith [mul_nonneg (sub_nonneg.mpr hkN) (sub_nonneg.mpr ha.1),
      mul_nonneg hk0 (sub_nonneg.mpr hb.1)]
  · nlinarith [mul_nonneg (sub_nonneg.mpr hkN) (sub_nonneg.mpr ha.2),
      mul_nonneg hk0 (sub_nonneg.mpr hb.2)]

/-- C21: when `q0` and `q1` have the same dimension and both satisfy
`isWithinLimits` (raw limits) and `n ≥ 1`, every interpolated row
`q0 + (i+1)*(q1 - q0)/(n+1)`, `0 ≤ i < n`, satisfies `isWithinLimits`, so no
assertion of `createInitialTrajectory` fails and the trajectory of these `n`
rows is produced. -/
theorem createInitialTrajectory_assertion_holds {K : Type} [LinearOrderedField K]
    (M : Planner K) (hn : 1 ≤ M.n) (hdim : M.q0.length = M.q1.length)
    (h0 : isWithinLimits M M.q0 = some true) (h1 : isWithinLimits M M.q1 = some true) :
    (∀ i, i < M.n →
      isWithinLimits M (seedRow M i) = some true ∧
      ∀ j, j < M.q0.length →
        (seedRow M i).getD j 0
          = M.q0.getD j 0 + ((i : K) + 1) * (M.q1.getD j 0 - M.q0.getD j 0) / ((M.n : K) + 1)) ∧
    createInitialTrajectory M = some ((List.range M.n).map (seedRow M)) := by
  obtain ⟨hc0, hq0⟩ := (isWithinLimits_eq_some_true_iff M M.q0).mp h0
  obtain ⟨_, hq1⟩ := (isWithinLimits_eq_some_true_iff M M.q1).mp h1
  have hrows : ∀ i, i < M.n → isWithinLimits M (seedRow M i) = some true := by
    intro i hi
    rw [isWithinLimits_eq_some_true_iff, seedRow_length]
    refine ⟨hc0, ?_⟩
    intro j hj
    rw [seedRow_getD M i j hj]
    have ha := hq0 j hj
    have hb := hq1 j (by rw [← hdim]; exact hj)
    have hbt := interpolation_between (M.q0.getD j 0) (M.q1.getD j 0)
      (M.lowerJointLimits.getD j 0) (M.upperJointLimits.getD j 0) i M.n hi
      ⟨ha.2, ha.1⟩ ⟨hb.2, hb.1⟩
    exact ⟨hbt.2, hbt.1⟩
  constructor
  · intro i hi
    refine ⟨hrows i hi, ?_⟩
    intro j hj
    rw [seedRow_getD M i j hj]
    ring
  · have hg : M.n ≠ 0 ∧ M.q0.length = M.q1.length := ⟨by omega, hdim⟩
    have hall : (List.range M.n).all (fun i => isWithinLimits M (seedRow M i) == some true)
        = true := by
      rw [List.all_eq_true]
      intro i hi
      rw [hrows i (List.mem_range.mp hi)]
      rfl
    rw [createInitialTrajectory, if_pos hg, if_pos hall]

/-- Witness for C21: limits `[-1, 1]`, start `-1`, goal `1`, three waypoints. -/
theorem createInitialTrajectory_assertion_holds_witness :
    createInitialTrajectory (demoPlanner ℚ (-1) 1 (-1) 1 3 0)
      = some ((List.range 3).map (seedRow (demoPlanner ℚ (-1) 1 (-1) 1 3 0))) :=
  (createInitialTrajectory_assertion_holds (demoPlanner ℚ (-1) 1 (-1) 1 3 0) (by decide) rfl
    (by simp [isWithinLimits, demoPlanner, List.range_succ])
    (by simp [isWithinLimits, demoPlanner, List.range_succ])).2

end orchomp
